import Mathlib

/-!
Verification development for the HDF5 table bridge (atpy/hdf5table.py).

The module persists in-memory tables (named columns of equal length plus
scalar keyword metadata) into a hierarchical container file (a tree of named
groups holding record datasets with attributes), and reads them back.

We give a shallow embedding: the container is a tree (`Node`), the file
system is an association list from file names to root nodes, and each
Python function of the source becomes a Lean function of the same name.
Errors become an explicit `Err` sum type; the sites that raise them in the
source are noted in comments.  Handle open/close bookkeeping is modelled by
counting the explicit `h5py.File(...)` open events and `f.close()` calls an
operation performs.
-/

namespace Hdf5Table

/-- Scalar values storable in table cells, keywords and attributes. -/
inductive Val where
  | vInt (i : Int)
  | vStr (s : String)
  | vBool (b : Bool)
deriving DecidableEq, Repr

/-- The payload of a structured (record) dataset: a row count and the named
columns.  `cols.map Prod.fst` plays the role of `dtype.names`; an empty
column list models a non-record dtype (`dtype.names` falsy). -/
structure TableData where
  nrows : Nat
  cols : List (String × List Val)
deriving DecidableEq, Repr

/-- In-memory table: `table_name` (possibly path-like, possibly empty),
column data, and keyword metadata. -/
structure Table where
  table_name : String
  data : TableData
  keywords : List (String × Val)
deriving DecidableEq, Repr

/-- `Table.reset` clears all prior state (atpy's `self.reset()`). -/
def Table.reset (_ : Table) : Table := ⟨"", ⟨0, []⟩, []⟩

/-- In-memory table set: tables in stored order plus file-level keywords. -/
structure TableSet where
  tables : List Table
  keywords : List (String × Val)
deriving DecidableEq, Repr

/-- `TableSet.reset` clears all prior state. -/
def TableSet.reset (_ : TableSet) : TableSet := ⟨[], []⟩

mutual
/-- A node of the hierarchical container: either a record dataset with its
attributes, or a group with attributes and named children (in creation
order, as h5py link order). -/
inductive Node where
  | dataset (data : TableData) (attrs : List (String × Val))
  | group (attrs : List (String × Val)) (children : NodeList)

/-- Named children of a group. -/
inductive NodeList where
  | nil
  | cons (name : String) (node : Node) (rest : NodeList)
end

/-- The empty group (a freshly created file or group). -/
def Node.emptyGroup : Node := .group [] .nil

/-- First-match lookup of a direct child by name. -/
def NodeList.lookup : NodeList → String → Option Node
  | .nil, _ => none
  | .cons nm c rest, key => if nm = key then some c else NodeList.lookup rest key

/-- Replace (all) children of the given name. -/
def NodeList.upd : NodeList → String → Node → NodeList
  | .nil, _, _ => .nil
  | .cons nm c rest, key, v =>
      if nm = key then .cons nm v (NodeList.upd rest key v)
      else .cons nm c (NodeList.upd rest key v)

/-- Append a child at the end (h5py creation order). -/
def NodeList.push : NodeList → String → Node → NodeList
  | .nil, nm, v => .cons nm v .nil
  | .cons n c rest, nm, v => .cons n c (NodeList.push rest nm v)

/-- The names of the direct children, in order (h5py `keys()`). -/
def NodeList.names : NodeList → List String
  | .nil => []
  | .cons nm _ rest => nm :: NodeList.names rest

/-- Direct children of a node (datasets have none). -/
def Node.children : Node → NodeList
  | .dataset _ _ => .nil
  | .group _ cs => cs

/-- Attributes of a node. -/
def Node.nodeAttrs : Node → List (String × Val)
  | .dataset _ a => a
  | .group a _ => a

/-- Direct child lookup on a node. -/
def Node.childNamed (n : Node) (key : String) : Option Node :=
  NodeList.lookup n.children key

/-- The list of direct child names of a node (h5py `keys()`). -/
def Node.childNames (n : Node) : List String :=
  n.children.names

/-- Membership of `key` in `g.keys()` (direct children only). -/
def Node.hasKey (n : Node) (key : String) : Bool :=
  (Node.childNamed n key).isSome

/-- First-match lookup in an association list (Python dict read). -/
def alookup {α : Type} : List (String × α) → String → Option α
  | [], _ => none
  | (k, v) :: r, key => if k = key then some v else alookup r key

/-- Python dict/attrs assignment: replace the existing binding else append. -/
def aset {α : Type} : List (String × α) → String → α → List (String × α)
  | [], k, v => [(k, v)]
  | (k', v') :: r, k, v => if k' = k then (k, v) :: r else (k', v') :: aset r k v

/-- Fold a sequence of dict/attrs assignments (`for k in src: dst[k] = src[k]`). -/
def asetAll {α : Type} (dst : List (String × α)) (src : List (String × α)) :
    List (String × α) :=
  src.foldl (fun a p => aset a p.1 p.2) dst

/-- Model of Python's `s.split(c)` (and of h5py's own path splitting),
defined by structural recursion over the characters of `s`. -/
def splitCharsAux (c : Char) : List Char → List Char → List String
  | [], acc => [String.mk acc.reverse]
  | x :: xs, acc =>
      if x = c then String.mk acc.reverse :: splitCharsAux c xs []
      else splitCharsAux c xs (x :: acc)

/-- Python `s.split(c)`: never empty; `"".split(c) = [""]`. -/
def pySplit (s : String) (c : Char) : List String :=
  splitCharsAux c s.data []

/-- Drop trailing empty segments (models `str.rstrip('/')` applied to a
path already split on slashes). -/
def dropTrailingEmpties (l : List String) : List String :=
  (l.reverse.dropWhile (fun s => s = "")).reverse

/-- Model of `os.path.basename` (posixpath): the part after the last slash. -/
def basename (p : String) : String :=
  (pySplit p '/').getLastD ""

/-- Model of `os.path.dirname` (posixpath): everything before the last
slash, with trailing slashes stripped unless the head is all slashes. -/
def dirname (p : String) : String :=
  let parts := pySplit p '/'
  if parts.length ≤ 1 then ""
  else
    let head := parts.dropLast
    if head.all (fun s => s = "") then String.join (head.map (fun s => s ++ "/"))
    else String.intercalate "/" (dropTrailingEmpties head)

/-- The file system: file name to root node of the container. -/
abbrev FS := List (String × Node)

/-- `os.path.exists` / file creation / `os.remove` on the model file system. -/
def fsInsert (fs : FS) (fn : String) (root : Node) : FS := aset fs fn root

/-- Model of `os.remove`. -/
def fsErase : FS → String → FS
  | [], _ => []
  | (k, v) :: r, fn => if k = fn then fsErase r fn else (k, v) :: fsErase r fn

/-- Error taxonomy.  Each constructor corresponds to a raise site of the
source (messages in comments) or to an error h5py itself raises. -/
inductive Err where
  | fileNotFound (filename : String)          -- read: "File not found: %s"
  | fileExists (filename : String)            -- write/write_set: "File exists: %s"
  | tableAlreadyExists (group name : String)  -- "Table %s/%s already exists"
  | ambiguousTable (tables : List String)     -- TableException(tables, 'table')
  | backendError (msg : String)               -- errors raised inside h5py
  | capabilityUnavailable                     -- "Cannot read/write HDF5 files - h5py required"
deriving DecidableEq, Repr

/-- The optional backend is present in this model (`h5py_installed`). -/
def h5py_installed : Bool := true

/-- Raise when the backend is missing (`_check_h5py_installed`). -/
def _check_h5py_installed : Option Err :=
  if h5py_installed then none else some .capabilityUnavailable

/-- Path lookup by pre-split segments (h5py `g[name]` splits on slashes and
descends; descending below a dataset or a missing name fails). -/
def findSegs : Node → List String → Option Node
  | n, [] => some n
  | n, s :: rest =>
      match Node.childNamed n s with
      | some c => findSegs c rest
      | none => none

/-- h5py item access `g[p]`. -/
def findPath (n : Node) (p : String) : Option Node :=
  findSegs n (pySplit p '/')

/-- h5py membership test `p in g` (path-capable). -/
def containsPath (n : Node) (p : String) : Bool :=
  (findPath n p).isSome

/-- Replace the subtree at a (known-valid) path; unchanged when the path
does not resolve. -/
def setAtSegs : Node → List String → Node → Node
  | _, [], r => r
  | .dataset d a, _ :: _, _ => .dataset d a
  | .group a cs, s :: rest, r =>
      match NodeList.lookup cs s with
      | none => .group a cs
      | some c => .group a (NodeList.upd cs s (setAtSegs c rest r))

/-- Attach attributes to the node at a path (`dset.attrs[k] = v` loop). -/
def setAttrsAtSegs : Node → List String → List (String × Val) → Node
  | .dataset d a, [], kws => .dataset d (asetAll a kws)
  | .group a cs, [], kws => .group (asetAll a kws) cs
  | .dataset d a, _ :: _, _ => .dataset d a
  | .group a cs, s :: rest, kws =>
      match NodeList.lookup cs s with
      | none => .group a cs
      | some c => .group a (NodeList.upd cs s (setAttrsAtSegs c rest kws))

/-- Attach attributes directly to a node (`g.attrs[k] = v` loop). -/
def Node.setNodeAttrs : Node → List (String × Val) → Node
  | .dataset d a, kws => .dataset d (asetAll a kws)
  | .group a cs, kws => .group (asetAll a kws) cs

mutual
/-- h5py `node.visit(append)`: all descendant names, depth-first in link
order, each as a full slash-joined relative path. -/
def visitNames : Node → List String
  | .dataset _ _ => []
  | .group _ cs => visitChildren cs

/-- Visit of a child list: each child name followed by its own descendants
prefixed with the child name. -/
def visitChildren : NodeList → List String
  | .nil => []
  | .cons nm c rest =>
      nm :: ((visitNames c).map (fun s => nm ++ "/" ++ s)) ++ visitChildren rest
end

/-- Does an optional node hold a record dataset (`dtype.names` truthy)? -/
def isRecordDataset : Option Node → Bool
  | some (.dataset d _) => !(d.cols.map Prod.fst).isEmpty
  | _ => false

/-- Source `_list_tables`: visit every descendant and keep the names that
are record datasets, as a name-to-name mapping. -/
def _list_tables (g : Node) : List (String × String) :=
  ((visitNames g).filter (fun item => isRecordDataset (findPath g item))).map
    (fun i => (i, i))

/-- h5py `create_group(name)` (path-capable): create missing intermediate
groups, descend through existing ones, and fail if the final name already
exists, is empty, or a dataset blocks the path. -/
def createGroupSegs : Node → List String → Node × Option Err
  | .dataset d a, _ => (.dataset d a, some (.backendError "unable to create group in a dataset"))
  | .group a cs, [] => (.group a cs, some (.backendError "invalid group name"))
  | .group a cs, [s] =>
      if s = "" then (.group a cs, some (.backendError "invalid group name"))
      else
        match NodeList.lookup cs s with
        | some _ => (.group a cs, some (.backendError ("unable to create group, name already exists: " ++ s)))
        | none => (.group a (NodeList.push cs s Node.emptyGroup), none)
  | .group a cs, s :: rest =>
      if s = "" then (.group a cs, some (.backendError "invalid group name"))
      else
        match NodeList.lookup cs s with
        | some (.dataset _ _) => (.group a cs, some (.backendError "unable to create group below a dataset"))
        | some (.group a2 cs2) =>
            let p := createGroupSegs (.group a2 cs2) rest
            (.group a (NodeList.upd cs s p.1), p.2)
        | none =>
            let p := createGroupSegs Node.emptyGroup rest
            (.group a (NodeList.push cs s p.1), p.2)

/-- h5py `create_dataset(name, data)` (path-capable): create missing
intermediate groups and fail if the final name already exists. -/
def createDatasetSegs : Node → List String → TableData → Node × Option Err
  | .dataset dd aa, _, _ => (.dataset dd aa, some (.backendError "unable to create dataset in a dataset"))
  | .group a cs, [], _ => (.group a cs, some (.backendError "invalid dataset name"))
  | .group a cs, [s], d =>
      if s = "" then (.group a cs, some (.backendError "invalid dataset name"))
      else
        match NodeList.lookup cs s with
        | some _ => (.group a cs, some (.backendError ("unable to create dataset, name already exists: " ++ s)))
        | none => (.group a (NodeList.push cs s (.dataset d [])), none)
  | .group a cs, s :: rest, d =>
      if s = "" then (.group a cs, some (.backendError "invalid dataset name"))
      else
        match NodeList.lookup cs s with
        | some (.dataset _ _) => (.group a cs, some (.backendError "unable to create dataset below a dataset"))
        | some (.group a2 cs2) =>
            let p := createDatasetSegs (.group a2 cs2) rest d
            (.group a (NodeList.upd cs s p.1), p.2)
        | none =>
            let p := createDatasetSegs Node.emptyGroup rest d
            (.group a (NodeList.push cs s p.1), p.2)

/-- h5py `g.create_dataset(name, data=...)`. -/
def createDataset (g : Node) (name : String) (d : TableData) : Node × Option Err :=
  createDatasetSegs g (pySplit name '/') d

/-- Source `_create_required_groups` loop body over `path.split('/')`:
descend into an existing segment, else create it as a group; iterating
below a dataset fails (h5py membership test on a dataset raises). -/
def crgSegs : Node → List String → Node × Option Err
  | g, [] => (g, none)
  | .dataset d a, _ :: _ => (.dataset d a, some (.backendError "membership test not supported on a dataset"))
  | .group a cs, s :: rest =>
      match NodeList.lookup cs s with
      | some c =>
          let p := crgSegs c rest
          (.group a (NodeList.upd cs s p.1), p.2)
      | none =>
          if s = "" then (.group a cs, some (.backendError "invalid group name"))
          else
            let p := crgSegs Node.emptyGroup rest
            (.group a (NodeList.push cs s p.1), p.2)

/-- Source `_create_required_groups(g, path)`. -/
def _create_required_groups (g : Node) (path : String) : Node × Option Err :=
  crgSegs g (pySplit path '/')

/-- Result of `_get_group`: the (possibly fresh) file root, the path of the
returned group handle below it, and an error if group creation failed. -/
structure OpenedFile where
  root : Node
  gpath : List String
  err : Option Err

/-- Source `_get_group(filename, group, append)`: open mode `'a'` keeps an
existing file's content (creating the file when absent), mode `'w'` starts
from an empty root; then resolve the optional group (reuse an existing
direct child in append mode, else create it). -/
def _get_group (existing : Option Node) (group : String) (append : Bool) : OpenedFile :=
  let f : Node := if append then existing.getD Node.emptyGroup else Node.emptyGroup
  if group ≠ "" then
    if append && Node.hasKey f group then
      { root := f, gpath := pySplit group '/', err := none }
    else
      let p := createGroupSegs f (pySplit group '/')
      { root := p.1, gpath := pySplit group '/', err := p.2 }
  else { root := f, gpath := [], err := none }

/-- An operation's target: a file name, or an already-open file/group
handle supplied by the caller. -/
inductive Target where
  | file (filename : String)
  | handle (node : Node)

/-- `self._setup_table(n, dtype)`: allocate zero-filled columns for the
given field layout. -/
def setup_table (n : Nat) (names : List String) : TableData :=
  ⟨n, names.map (fun nm => (nm, List.replicate n (Val.vInt 0)))⟩

/-- Full-column assignment `self.data[name][:] = src`. -/
def updCol (cols : List (String × List Val)) (nm : String) (v : List Val) :
    List (String × List Val) :=
  cols.map (fun p => if p.1 = nm then (p.1, v) else p)

/-- The copy loop `for name in dtype.names: self.data[name][:] = g[table][name][:]`. -/
def copyColumns (dst : List (String × List Val)) (names : List String)
    (src : List (String × List Val)) : List (String × List Val) :=
  names.foldl (fun d nm => updCol d nm ((alookup src nm).getD [])) dst

/-- Result of the single-table read: the populated (or reset) table, the
error if any, and the number of file handles opened and explicitly closed. -/
structure ReadResult where
  table : Table
  err : Option Err
  opened : Nat
  closed : Nat
deriving DecidableEq, Repr

/-- Body of `read` once the group handle `g` is resolved: discover the
table when none was requested (exactly one required), set the table name,
allocate and copy the columns, and close the file only when this operation
opened it (the close is skipped on the error exits, as in the source). -/
def readFromGroup (g : Node) (ownsFile : Bool) (self : Table)
    (tableArg : Option String) : ReadResult :=
  let opened : Nat := if ownsFile then 1 else 0
  let resolved : Except Err String :=
    match tableArg with
    | none =>
        match _list_tables g with
        | [(k, _)] => .ok k
        | ts => .error (.ambiguousTable (ts.map Prod.fst))
    | some t => .ok t
  match resolved with
  | .error e => ⟨self, some e, opened, 0⟩
  | .ok tname =>
      let self := { self with table_name := tname }
      match findPath g tname with
      | some (.dataset d _) =>
          let alloc := setup_table d.nrows (d.cols.map Prod.fst)
          let cols := copyColumns alloc.cols (d.cols.map Prod.fst) d.cols
          ⟨{ self with data := ⟨d.nrows, cols⟩ }, none, opened, opened⟩
      | _ => ⟨self, some (.backendError ("unable to open object " ++ tname)), opened, 0⟩

/-- Source `read(self, filename, table=None)`: backend check, reset the
target table, dispatch on file name vs. open handle (a missing file is an
error), then read via `readFromGroup`. -/
def read (fs : FS) (target : Target) (self : Table) (table : Option String) :
    ReadResult :=
  match _check_h5py_installed with
  | some e => ⟨self, some e, 0, 0⟩
  | none =>
      let self := Table.reset self
      match target with
      | .handle n => readFromGroup n false self table
      | .file fn =>
          match alookup fs fn with
          | none => ⟨self, some (.fileNotFound fn), 0, 0⟩
          | some root => readFromGroup root true self table

/-- Result of the table-set read. -/
structure ReadSetResult where
  tset : TableSet
  err : Option Err
  opened : Nat
  closed : Nat
deriving DecidableEq, Repr

/-- The `read_set` loop: read each discovered table into a fresh `Table`
and append it, accumulating the handle counters of the inner reads. -/
def readSetLoop (fs : FS) (fn : String) :
    List String → TableSet → Nat → Nat → ReadSetResult
  | [], acc, op, cl => ⟨acc, none, op, cl⟩
  | k :: rest, acc, op, cl =>
      let r := read fs (.file fn) ⟨"", ⟨0, []⟩, []⟩ (some k)
      match r.err with
      | some e => ⟨acc, some e, op + r.opened, cl + r.closed⟩
      | none =>
          readSetLoop fs fn rest { acc with tables := acc.tables ++ [r.table] }
            (op + r.opened) (cl + r.closed)

/-- Source `read_set(self, filename)`: reset, open `'r'` to copy the
file-level attributes into the keywords and close; then open the file a
second time for `_list_tables` (this second handle is never closed) and
read every discovered table in turn. -/
def read_set (fs : FS) (fn : String) (self : TableSet) : ReadSetResult :=
  match _check_h5py_installed with
  | some e => ⟨self, some e, 0, 0⟩
  | none =>
      let self := TableSet.reset self
      match alookup fs fn with
      | none => ⟨self, some (.backendError ("unable to open file: " ++ fn)), 0, 0⟩
      | some root =>
          let self := { self with keywords := asetAll self.keywords root.nodeAttrs }
          let tables := _list_tables root
          readSetLoop fs fn (tables.map Prod.fst) self 2 1

/-- The final write name of a table: its own `table_name` when non-empty,
else the fallback; reduced to its basename under `ignore_groups`. -/
def resolvedWriteName (tbl : Table) (fallback : String) (ignore_groups : Bool) :
    String :=
  let name := if tbl.table_name ≠ "" then tbl.table_name else fallback
  if ignore_groups then basename name else name

/-- The per-table write block shared by `write` and `write_set` (source
lines 198-216 and 266-286): resolve the name, create the required groups
unless `ignore_groups`, fail if the name is already a key of the target
group, create the dataset and attach the table's keywords to it. -/
def writeTableToGroup (g : Node) (tbl : Table) (groupArg : String)
    (ignore_groups : Bool) (fallback : String) : Node × Option Err :=
  let name0 := if tbl.table_name ≠ "" then tbl.table_name else fallback
  let name := resolvedWriteName tbl fallback ignore_groups
  let step1 : Node × Option Err :=
    if ignore_groups then (g, none)
    else
      let path := dirname name0
      if path ≠ "" then _create_required_groups g path else (g, none)
  match step1.2 with
  | some e => (step1.1, some e)
  | none =>
      let g1 := step1.1
      if Node.hasKey g1 name then (g1, some (.tableAlreadyExists groupArg name))
      else
        let p := createDataset g1 name tbl.data
        match p.2 with
        | some e => (p.1, some e)
        | none => (setAttrsAtSegs p.1 (pySplit name '/') tbl.keywords, none)

/-- Result of the single-table write: the file system after the call, the
updated handle when the caller supplied one, the error if any, and the
open/close counters. -/
structure WriteResult where
  fs : FS
  hnode : Option Node
  err : Option Err
  opened : Nat
  closed : Nat

/-- File-name branch of `write` after the existence policy: `_get_group`,
the per-table block, and a close only on the success exit. -/
def writeFileCase (fs : FS) (fn : String) (tbl : Table) (group : String)
    (append ignore_groups : Bool) : WriteResult :=
  let opf := _get_group (alookup fs fn) group append
  match opf.err with
  | some e => ⟨fsInsert fs fn opf.root, none, some e, 1, 0⟩
  | none =>
      let sub := (findSegs opf.root opf.gpath).getD opf.root
      let p := writeTableToGroup sub tbl group ignore_groups "Table"
      let root := setAtSegs opf.root opf.gpath p.1
      ⟨fsInsert fs fn root, none, p.2, 1, if p.2.isNone then 1 else 0⟩

/-- Source `write(self, filename, ...)`: backend check; for an open handle
use it directly (resolving the requested group by reuse-or-create, no
file-system interaction, never closed); for a file name apply the
exclusive/overwrite/append policy and then write. -/
def write (fs : FS) (target : Target) (self : Table) (_compression : Bool)
    (group : String) (append overwrite ignore_groups : Bool) : WriteResult :=
  match _check_h5py_installed with
  | some e => ⟨fs, none, some e, 0, 0⟩
  | none =>
      match target with
      | .handle n =>
          let p0 : Node × Option Err :=
            if group ≠ "" then
              if containsPath n group then (n, none)
              else createGroupSegs n (pySplit group '/')
            else (n, none)
          match p0.2 with
          | some e => ⟨fs, some p0.1, some e, 0, 0⟩
          | none =>
              let gpath := if group ≠ "" then pySplit group '/' else []
              let sub := (findSegs p0.1 gpath).getD p0.1
              let p := writeTableToGroup sub self group ignore_groups "Table"
              ⟨fs, some (setAtSegs p0.1 gpath p.1), p.2, 0, 0⟩
      | .file fn =>
          if (alookup fs fn).isSome && !append then
            if overwrite then writeFileCase (fsErase fs fn) fn self group append ignore_groups
            else ⟨fs, none, some (.fileExists fn), 0, 0⟩
          else writeFileCase fs fn self group append ignore_groups

/-- The positional fallback name `"Table_%02i" % i`. -/
def fallbackName (i : Nat) : String :=
  "Table_" ++ (if i < 10 then "0" ++ toString i else toString i)

/-- The `write_set` loop over the tables in stored order with their index,
stopping at the first error (the partially mutated group is kept, as the
mutations have already reached the file). -/
def writeSetTables (groupArg : String) (ignore_groups : Bool) :
    Node → List Table → Nat → Node × Option Err
  | g, [], _ => (g, none)
  | g, t :: rest, i =>
      let p := writeTableToGroup g t groupArg ignore_groups (fallbackName i)
      match p.2 with
      | some e => (p.1, some e)
      | none => writeSetTables groupArg ignore_groups p.1 rest (i + 1)

/-- Concatenation of two child lists (used only to state the expected
result of a table-set write). -/
def NodeList.appendList : NodeList → NodeList → NodeList
  | .nil, l => l
  | .cons nm c rest, l => .cons nm c (NodeList.appendList rest l)

/-- The resolved write names of a list of tables starting at index `i`,
following the claim's wording: a table's own `table_name` when non-empty,
else the positional fallback name for its zero-based index. -/
def setWriteNames : List Table → Nat → List String
  | [], _ => []
  | t :: rest, i =>
      (if t.table_name ≠ "" then t.table_name else fallbackName i) ::
        setWriteNames rest (i + 1)

/-- The children a table-set write is expected to create, following the
claim's wording: the tables in stored order, each under its resolved write
name, holding its data with its keywords attached as attributes. -/
def expectedSetChildren : List Table → Nat → NodeList
  | [], _ => .nil
  | t :: rest, i =>
      .cons (if t.table_name ≠ "" then t.table_name else fallbackName i)
        (.dataset t.data (asetAll [] t.keywords))
        (expectedSetChildren rest (i + 1))

/-- Result of the table-set write. -/
structure WriteSetResult where
  fs : FS
  err : Option Err
  opened : Nat
  closed : Nat

/-- `write_set` after the existence policy: `_get_group`, attach the
file-level keywords to the group, write every table, close once at the end
(skipped on the error exits). -/
def writeSetOpen (fs : FS) (fn : String) (self : TableSet) (group : String)
    (append ignore_groups : Bool) : WriteSetResult :=
  let opf := _get_group (alookup fs fn) group append
  match opf.err with
  | some e => ⟨fsInsert fs fn opf.root, some e, 1, 0⟩
  | none =>
      let sub := (findSegs opf.root opf.gpath).getD opf.root
      let sub := Node.setNodeAttrs sub self.keywords
      let p := writeSetTables group ignore_groups sub self.tables 0
      let root := setAtSegs opf.root opf.gpath p.1
      ⟨fsInsert fs fn root, p.2, 1, if p.2.isNone then 1 else 0⟩

/-- Source `write_set(self, filename, ...)`: the same existence policy as
`write` applied to the file name, then `writeSetOpen`. -/
def write_set (fs : FS) (fn : String) (self : TableSet) (_compression : Bool)
    (group : String) (append overwrite ignore_groups : Bool) : WriteSetResult :=
  match _check_h5py_installed with
  | some e => ⟨fs, some e, 0, 0⟩
  | none =>
      if (alookup fs fn).isSome && !append then
        if overwrite then writeSetOpen (fsErase fs fn) fn self group append ignore_groups
        else ⟨fs, some (.fileExists fn), 0, 0⟩
      else writeSetOpen fs fn self group append ignore_groups

/-! ### Basic lemmas about the association-list and child-list operations -/

theorem alookup_aset_self {α : Type} (l : List (String × α)) (k : String) (v : α) :
    alookup (aset l k v) k = some v := by
  induction l with
  | nil => simp [aset, alookup]
  | cons p r ih =>
      obtain ⟨k', v'⟩ := p
      by_cases h : k' = k
      · subst h; simp [aset, alookup]
      · simp [aset, alookup, h, ih]

theorem alookup_aset_ne {α : Type} (l : List (String × α)) (k k' : String) (v : α)
    (h : k' ≠ k) : alookup (aset l k v) k' = alookup l k' := by
  induction l with
  | nil => simp [aset, alookup, Ne.symm h]
  | cons p r ih =>
      obtain ⟨k0, v0⟩ := p
      by_cases h0 : k0 = k
      · subst h0
        simp [aset, alookup, Ne.symm h]
      · simp [aset, alookup, h0, ih]

theorem aset_of_alookup_eq {α : Type} (l : List (String × α)) (k : String) (v : α)
    (h : alookup l k = some v) : aset l k v = l := by
  induction l with
  | nil => simp [alookup] at h
  | cons p r ih =>
      obtain ⟨k0, v0⟩ := p
      by_cases h0 : k0 = k
      · subst h0
        simp [alookup] at h
        simp [aset, h]
      · simp [alookup, h0] at h
        simp [aset, h0, ih h]

theorem alookup_fsErase_self (fs : FS) (fn : String) :
    alookup (fsErase fs fn) fn = none := by
  induction fs with
  | nil => simp [fsErase, alookup]
  | cons p r ih =>
      obtain ⟨k, v⟩ := p
      by_cases h : k = fn
      · simp [fsErase, h, ih]
      · simp [fsErase, h, alookup, ih]

/-- Single-motive induction principle for `NodeList` (the mutual recursor
has two motives, which the `induction` tactic cannot use directly). -/
theorem NodeList.inductionOn {P : NodeList → Prop} (hnil : P .nil)
    (hcons : ∀ nm c rest, P rest → P (.cons nm c rest)) : ∀ cs, P cs
  | .nil => hnil
  | .cons nm c rest => hcons nm c rest (NodeList.inductionOn hnil hcons rest)

theorem NodeList.lookup_push (cs : NodeList) (s k : String) (v : Node) :
    NodeList.lookup (NodeList.push cs s v) k =
      match NodeList.lookup cs k with
      | some c => some c
      | none => if s = k then some v else none := by
  induction cs using NodeList.inductionOn with
  | hnil => simp [NodeList.push, NodeList.lookup]
  | hcons nm c rest ih =>
      by_cases h : nm = k
      · simp [NodeList.push, NodeList.lookup, h]
      · simp [NodeList.push, NodeList.lookup, h, ih]

theorem NodeList.lookup_upd (cs : NodeList) (s k : String) (v : Node) :
    NodeList.lookup (NodeList.upd cs s v) k =
      if s = k then (NodeList.lookup cs k).map (fun _ => v)
      else NodeList.lookup cs k := by
  induction cs using NodeList.inductionOn with
  | hnil => simp [NodeList.upd, NodeList.lookup]
  | hcons nm c rest ih =>
      by_cases hs : nm = s
      · subst hs
        by_cases hk : nm = k
        · subst hk
          simp [NodeList.upd, NodeList.lookup, ih]
        · simp [NodeList.upd, NodeList.lookup, hk, ih, Ne.symm hk]
      · by_cases hk : nm = k
        · subst hk
          simp [NodeList.upd, NodeList.lookup, hs, ih, Ne.symm hs]
        · simp [NodeList.upd, NodeList.lookup, hs, hk, ih]

theorem NodeList.upd_upd_same (cs : NodeList) (s : String) (v w : Node) :
    NodeList.upd (NodeList.upd cs s v) s w = NodeList.upd cs s w := by
  induction cs using NodeList.inductionOn with
  | hnil => simp [NodeList.upd]
  | hcons nm c rest ih =>
      by_cases h : nm = s
      · simp [NodeList.upd, h, ih]
      · simp [NodeList.upd, h, ih]

theorem NodeList.upd_push_of_lookup_none (cs : NodeList) (s : String) (v w : Node)
    (h : NodeList.lookup cs s = none) :
    NodeList.upd (NodeList.push cs s v) s w = NodeList.push cs s w := by
  induction cs using NodeList.inductionOn with
  | hnil => simp [NodeList.push, NodeList.upd]
  | hcons nm c rest ih =>
      by_cases h0 : nm = s
      · simp [NodeList.lookup, h0] at h
      · simp [NodeList.lookup, h0] at h
        simp [NodeList.push, NodeList.upd, h0, ih h]

theorem NodeList.names_upd (cs : NodeList) (s : String) (v : Node) :
    NodeList.names (NodeList.upd cs s v) = NodeList.names cs := by
  induction cs using NodeList.inductionOn with
  | hnil => simp [NodeList.upd]
  | hcons nm c rest ih =>
      by_cases h : nm = s
      · simp [NodeList.upd, NodeList.names, h, ih]
      · simp [NodeList.upd, NodeList.names, h, ih]

theorem NodeList.names_push (cs : NodeList) (s : String) (v : Node) :
    NodeList.names (NodeList.push cs s v) = NodeList.names cs ++ [s] := by
  induction cs using NodeList.inductionOn with
  | hnil => simp [NodeList.push, NodeList.names]
  | hcons nm c rest ih =>
      simp [NodeList.push, NodeList.names, ih]

/-! ### Lemmas about the model of Python's string splitting -/

theorem splitCharsAux_ne_nil (c : Char) (xs acc : List Char) :
    splitCharsAux c xs acc ≠ [] := by
  induction xs generalizing acc with
  | nil => simp [splitCharsAux]
  | cons x xs ih =>
      by_cases h : x = c
      · simp [splitCharsAux, h]
      · simp [splitCharsAux, h, ih]

theorem pySplit_ne_nil (s : String) (c : Char) : pySplit s c ≠ [] :=
  splitCharsAux_ne_nil c s.data []

theorem dirname_of_single (p : String) (h : pySplit p '/' = [p]) :
    dirname p = "" := by
  simp [dirname, h]

@[simp] theorem Node.childNamed_dataset (d : TableData) (a : List (String × Val))
    (k : String) : Node.childNamed (.dataset d a) k = none := rfl

@[simp] theorem Node.childNamed_group (a : List (String × Val)) (cs : NodeList)
    (k : String) : Node.childNamed (.group a cs) k = NodeList.lookup cs k := rfl

/-! ### Preservation lemmas: the write operations never replace an existing
direct-child dataset of the target group (they error instead). -/

theorem crgSegs_preserves_dataset (segs : List String) (g : Node) (nm : String)
    (d : TableData) (a : List (String × Val))
    (h : Node.childNamed g nm = some (.dataset d a)) :
    Node.childNamed (crgSegs g segs).1 nm = some (.dataset d a) := by
  match segs, g with
  | [], g => simpa [crgSegs] using h
  | s :: rest, .dataset d0 a0 => simp at h
  | s :: rest, .group a0 cs =>
      simp at h
      cases hl : NodeList.lookup cs s with
      | some c =>
          by_cases hs : s = nm
          · subst hs
            rw [hl] at h
            cases h
            have hp : (crgSegs (Node.dataset d a) rest).1 = .dataset d a := by
              cases rest <;> simp [crgSegs]
            simp [crgSegs, hl, NodeList.lookup_upd, hp]
          · simp [crgSegs, hl, NodeList.lookup_upd, hs, h]
      | none =>
          by_cases hs : s = ""
          · subst hs
            simp [crgSegs, hl, h]
          · have hsnm : s ≠ nm := by
              intro hh
              rw [hh, h] at hl
              cases hl
            simp [crgSegs, hl, hs, NodeList.lookup_push, h]

theorem createDatasetSegs_preserves_dataset (segs : List String) (g : Node)
    (dd : TableData) (nm : String) (d : TableData) (a : List (String × Val))
    (h : Node.childNamed g nm = some (.dataset d a)) :
    Node.childNamed (createDatasetSegs g segs dd).1 nm = some (.dataset d a) := by
  match segs, g with
  | segs, .dataset d0 a0 => simp at h
  | [], .group a0 cs => simpa [createDatasetSegs] using h
  | [s], .group a0 cs =>
      simp at h
      by_cases hs : s = ""
      · simp [createDatasetSegs, hs, h]
      · cases hl : NodeList.lookup cs s with
        | some c => simp [createDatasetSegs, hs, hl, h]
        | none =>
            have hsnm : s ≠ nm := by
              intro hh
              rw [hh, h] at hl
              cases hl
            simp [createDatasetSegs, hs, hl, NodeList.lookup_push, h]
  | s :: s2 :: rest, .group a0 cs =>
      simp at h
      by_cases hs : s = ""
      · simp [createDatasetSegs, hs, h]
      · cases hl : NodeList.lookup cs s with
        | some c =>
            match c with
            | .dataset d1 a1 => simp [createDatasetSegs, hs, hl, h]
            | .group a1 cs1 =>
                by_cases hsnm : s = nm
                · rw [hsnm, h] at hl
                  cases hl
                · simp [createDatasetSegs, hs, hl, NodeList.lookup_upd, hsnm, h]
        | none =>
            have hsnm : s ≠ nm := by
              intro hh
              rw [hh, h] at hl
              cases hl
            simp [createDatasetSegs, hs, hl, NodeList.lookup_push, h]

theorem setAttrsAtSegs_preserves_of_head_ne (g : Node) (s : String)
    (rest : List String) (kws : List (String × Val)) (nm : String)
    (hs : s ≠ nm) :
    Node.childNamed (setAttrsAtSegs g (s :: rest) kws) nm = Node.childNamed g nm := by
  match g with
  | .dataset d0 a0 => simp [setAttrsAtSegs]
  | .group a0 cs =>
      cases hl : NodeList.lookup cs s with
      | some c => simp [setAttrsAtSegs, hl, NodeList.lookup_upd, hs]
      | none => simp [setAttrsAtSegs, hl]

theorem createDatasetSegs_ok_head_ne (s : String) (rest : List String) (g : Node)
    (dd : TableData) (nm : String) (d : TableData) (a : List (String × Val))
    (h : Node.childNamed g nm = some (.dataset d a))
    (hok : (createDatasetSegs g (s :: rest) dd).2 = none) : s ≠ nm := by
  intro hs
  subst hs
  match g with
  | .dataset d0 a0 => simp at h
  | .group a0 cs =>
      simp at h
      match rest with
      | [] =>
          by_cases hs0 : s = ""
          · simp [createDatasetSegs, hs0] at hok
          · simp [createDatasetSegs, hs0, h] at hok
      | s2 :: rest2 =>
          by_cases hs0 : s = ""
          · simp [createDatasetSegs, hs0] at hok
          · simp [createDatasetSegs, hs0, h] at hok

theorem writeTableToGroup_preserves_dataset (g : Node) (t : Table) (grp : String)
    (ig : Bool) (fb : String) (nm : String) (d : TableData)
    (a : List (String × Val))
    (h : Node.childNamed g nm = some (.dataset d a)) :
    Node.childNamed (writeTableToGroup g t grp ig fb).1 nm = some (.dataset d a) := by
  rw [writeTableToGroup]
  set name0 := if t.table_name ≠ "" then t.table_name else fb with hname0
  set name := resolvedWriteName t fb ig with hname
  set step1 : Node × Option Err :=
    (if ig then (g, none)
     else
       let path := dirname name0
       if path ≠ "" then _create_required_groups g path else (g, none)) with hstep1
  have hpres1 : Node.childNamed step1.1 nm = some (.dataset d a) := by
    rw [hstep1]
    by_cases hig : ig
    · simpa [hig] using h
    · by_cases hp : dirname name0 ≠ ""
      · simpa [hig, hp, _create_required_groups] using
          crgSegs_preserves_dataset (pySplit (dirname name0) '/') g nm d a h
      · simpa [hig, hp] using h
  cases hse : step1.2 with
  | some e => simpa using hpres1
  | none =>
      simp only []
      by_cases hk : Node.hasKey step1.1 name
      · simpa [hk] using hpres1
      · have hcd := createDatasetSegs_preserves_dataset (pySplit name '/') step1.1
          t.data nm d a hpres1
        cases hce : (createDataset step1.1 name t.data).2 with
        | some e => simpa [hk, createDataset, hce] using hcd
        | none =>
            cases hsplit : pySplit name '/' with
            | nil => exact absurd hsplit (pySplit_ne_nil name '/')
            | cons s rest =>
                simp only [createDataset] at hce
                rw [hsplit] at hcd hce
                have hne : s ≠ nm :=
                  createDatasetSegs_ok_head_ne s rest step1.1 t.data nm d a
                    hpres1 hce
                simp [hk, createDataset, hsplit, hce,
                  setAttrsAtSegs_preserves_of_head_ne _ s rest _ nm hne, hcd]

theorem Node.hasKey_of_childNamed {g : Node} {nm : String} {c : Node}
    (h : Node.childNamed g nm = some c) : Node.hasKey g nm = true := by
  simp [Node.hasKey, h]

theorem writeSetTables_preserves_dataset (grp : String) (ig : Bool)
    (ts : List Table) : ∀ (g : Node) (i : Nat) (nm : String) (d : TableData)
    (a : List (String × Val)), Node.childNamed g nm = some (.dataset d a) →
    Node.childNamed (writeSetTables grp ig g ts i).1 nm = some (.dataset d a) := by
  induction ts with
  | nil => intro g i nm d a h; simpa [writeSetTables] using h
  | cons t rest ih =>
      intro g i nm d a h
      have hp := writeTableToGroup_preserves_dataset g t grp ig (fallbackName i) nm d a h
      cases he : (writeTableToGroup g t grp ig (fallbackName i)).2 with
      | some e => simpa [writeSetTables, he] using hp
      | none =>
          simpa [writeSetTables, he] using
            ih (writeTableToGroup g t grp ig (fallbackName i)).1 (i + 1) nm d a hp

theorem writeSetTables_append (grp : String) (ig : Bool) (xs ys : List Table) :
    ∀ (g : Node) (i : Nat),
    writeSetTables grp ig g (xs ++ ys) i =
      match writeSetTables grp ig g xs i with
      | (g1, none) => writeSetTables grp ig g1 ys (i + xs.length)
      | (g1, some e) => (g1, some e) := by
  induction xs with
  | nil => intro g i; simp [writeSetTables]
  | cons x xs ih =>
      intro g i
      cases he : (writeTableToGroup g x grp ig (fallbackName i)).2 with
      | some e => simp [writeSetTables, he]
      | none =>
          have hlen : i + 1 + xs.length = i + (xs.length + 1) := by omega
          simp [writeSetTables, he, ih, hlen]

theorem writeTableToGroup_collision (g : Node) (t : Table) (grp : String)
    (ig : Bool) (fb : String)
    (hn : pySplit (resolvedWriteName t fb ig) '/' = [resolvedWriteName t fb ig])
    (hk : Node.hasKey g (resolvedWriteName t fb ig) = true) :
    writeTableToGroup g t grp ig fb =
      (g, some (.tableAlreadyExists grp (resolvedWriteName t fb ig))) := by
  by_cases hig : ig
  · subst hig
    simp [writeTableToGroup, hk]
  · rw [Bool.not_eq_true] at hig
    subst hig
    have hres : resolvedWriteName t fb false =
        (if t.table_name = "" then fb else t.table_name) := by
      simp [resolvedWriteName]
    have hdir2 : dirname (if t.table_name = "" then fb else t.table_name) = "" := by
      rw [← hres]
      exact dirname_of_single _ hn
    have hk2 : Node.hasKey g (if t.table_name = "" then fb else t.table_name) = true := by
      rw [← hres]
      exact hk
    simp [writeTableToGroup, resolvedWriteName, hdir2, hk2]

/-! ### Error-shape lemmas: which error constructors each operation can
produce. -/

theorem crgSegs_err_shape : ∀ (segs : List String) (g : Node) (e : Err),
    (crgSegs g segs).2 = some e → ∃ m, e = .backendError m := by
  intro segs
  induction segs with
  | nil => intro g e h; simp [crgSegs] at h
  | cons s rest ih =>
      intro g e h
      match g with
      | .dataset d0 a0 =>
          simp [crgSegs] at h
          exact ⟨_, h.symm⟩
      | .group a0 cs =>
          cases hl : NodeList.lookup cs s with
          | some c =>
              simp [crgSegs, hl] at h
              exact ih c e h
          | none =>
              by_cases hs : s = ""
              · subst hs
                simp [crgSegs, hl] at h
                exact ⟨_, h.symm⟩
              · simp [crgSegs, hl, hs] at h
                exact ih Node.emptyGroup e h

theorem createGroupSegs_err_shape : ∀ (segs : List String) (g : Node) (e : Err),
    (createGroupSegs g segs).2 = some e → ∃ m, e = .backendError m := by
  intro segs
  induction segs with
  | nil =>
      intro g e h
      match g with
      | .dataset d0 a0 => simp [createGroupSegs] at h; exact ⟨_, h.symm⟩
      | .group a0 cs => simp [createGroupSegs] at h; exact ⟨_, h.symm⟩
  | cons s rest ih =>
      intro g e h
      match g with
      | .dataset d0 a0 =>
          simp [createGroupSegs] at h
          exact ⟨_, h.symm⟩
      | .group a0 cs =>
          match rest with
          | [] =>
              by_cases hs : s = ""
              · subst hs; simp [createGroupSegs] at h; exact ⟨_, h.symm⟩
              · cases hl : NodeList.lookup cs s with
                | some c =>
                    simp [createGroupSegs, hs, hl] at h
                    exact ⟨_, h.symm⟩
                | none => simp [createGroupSegs, hs, hl] at h
          | s2 :: rest2 =>
              by_cases hs : s = ""
              · subst hs; simp [createGroupSegs] at h; exact ⟨_, h.symm⟩
              · cases hl : NodeList.lookup cs s with
                | some c =>
                    match c with
                    | .dataset d1 a1 =>
                        simp [createGroupSegs, hs, hl] at h
                        exact ⟨_, h.symm⟩
                    | .group a1 cs1 =>
                        simp [createGroupSegs, hs, hl] at h
                        exact ih (.group a1 cs1) e h
                | none =>
                    simp [createGroupSegs, hs, hl] at h
                    exact ih Node.emptyGroup e h

theorem createDatasetSegs_err_shape : ∀ (segs : List String) (g : Node)
    (dd : TableData) (e : Err),
    (createDatasetSegs g segs dd).2 = some e → ∃ m, e = .backendError m := by
  intro segs
  induction segs with
  | nil =>
      intro g dd e h
      match g with
      | .dataset d0 a0 => simp [createDatasetSegs] at h; exact ⟨_, h.symm⟩
      | .group a0 cs => simp [createDatasetSegs] at h; exact ⟨_, h.symm⟩
  | cons s rest ih =>
      intro g dd e h
      match g with
      | .dataset d0 a0 =>
          simp [createDatasetSegs] at h
          exact ⟨_, h.symm⟩
      | .group a0 cs =>
          match rest with
          | [] =>
              by_cases hs : s = ""
              · subst hs; simp [createDatasetSegs] at h; exact ⟨_, h.symm⟩
              · cases hl : NodeList.lookup cs s with
                | some c =>
                    simp [createDatasetSegs, hs, hl] at h
                    exact ⟨_, h.symm⟩
                | none => simp [createDatasetSegs, hs, hl] at h
          | s2 :: rest2 =>
              by_cases hs : s = ""
              · subst hs; simp [createDatasetSegs] at h; exact ⟨_, h.symm⟩
              · cases hl : NodeList.lookup cs s with
                | some c =>
                    match c with
                    | .dataset d1 a1 =>
                        simp [createDatasetSegs, hs, hl] at h
                        exact ⟨_, h.symm⟩
                    | .group a1 cs1 =>
                        simp [createDatasetSegs, hs, hl] at h
                        exact ih (.group a1 cs1) dd e h
                | none =>
                    simp [createDatasetSegs, hs, hl] at h
                    exact ih Node.emptyGroup dd e h

theorem writeTableToGroup_err_shape (g : Node) (t : Table) (grp : String)
    (ig : Bool) (fb : String) (e : Err)
    (h : (writeTableToGroup g t grp ig fb).2 = some e) :
    (∃ m, e = .backendError m) ∨ ∃ gr n, e = .tableAlreadyExists gr n := by
  rw [writeTableToGroup] at h
  set name0 := if t.table_name ≠ "" then t.table_name else fb with hname0
  set name := resolvedWriteName t fb ig with hname
  set step1 : Node × Option Err :=
    (if ig then (g, none)
     else
       let path := dirname name0
       if path ≠ "" then _create_required_groups g path else (g, none)) with hstep1
  cases hse : step1.2 with
  | some e1 =>
      rw [hse] at h
      simp at h
      subst h
      left
      rw [hstep1] at hse
      by_cases hig : ig
      · simp [hig] at hse
      · by_cases hp : dirname name0 ≠ ""
        · simp [hig, hp] at hse
          exact crgSegs_err_shape _ g e1 (by simpa [_create_required_groups] using hse)
        · simp [hig, hp] at hse
  | none =>
      rw [hse] at h
      simp at h
      by_cases hk : Node.hasKey step1.1 name
      · simp [hk] at h
        exact Or.inr ⟨grp, name, h.symm⟩
      · simp [hk] at h
        cases hce : (createDataset step1.1 name t.data).2 with
        | some e1 =>
            rw [hce] at h
            simp at h
            subst h
            exact Or.inl (createDatasetSegs_err_shape (pySplit name '/') step1.1
              t.data e1 (by simpa [createDataset] using hce))
        | none => rw [hce] at h; simp at h

theorem writeSetTables_err_shape (grp : String) (ig : Bool) (ts : List Table) :
    ∀ (g : Node) (i : Nat) (e : Err), (writeSetTables grp ig g ts i).2 = some e →
    (∃ m, e = .backendError m) ∨ ∃ gr n, e = .tableAlreadyExists gr n := by
  induction ts with
  | nil => intro g i e h; simp [writeSetTables] at h
  | cons t rest ih =>
      intro g i e h
      cases he : (writeTableToGroup g t grp ig (fallbackName i)).2 with
      | some e1 =>
          simp [writeSetTables, he] at h
          subst h
          exact writeTableToGroup_err_shape g t grp ig (fallbackName i) e1 he
      | none =>
          simp [writeSetTables, he] at h
          exact ih _ (i + 1) e h

theorem _get_group_err_shape (existing : Option Node) (group : String)
    (append : Bool) (e : Err) (h : (_get_group existing group append).err = some e) :
    ∃ m, e = .backendError m := by
  rw [_get_group] at h
  set f : Node := if append then existing.getD Node.emptyGroup else Node.emptyGroup
  by_cases hg : group ≠ ""
  · by_cases hk : (append && Node.hasKey f group) = true
    · simp [hg, hk] at h
    · simp [hg, hk] at h
      exact createGroupSegs_err_shape (pySplit group '/') f e h
  · simp [hg] at h

/-! ### Idempotence of the path resolver -/

theorem crgSegs_idem : ∀ (segs : List String) (g : Node),
    crgSegs (crgSegs g segs).1 segs = crgSegs g segs := by
  intro segs
  induction segs with
  | nil => intro g; simp [crgSegs]
  | cons s rest ih =>
      intro g
      match g with
      | .dataset d a => simp [crgSegs]
      | .group a cs =>
          cases hl : NodeList.lookup cs s with
          | some c =>
              have hl2 : NodeList.lookup (NodeList.upd cs s (crgSegs c rest).1) s =
                  some (crgSegs c rest).1 := by
                simp [NodeList.lookup_upd, hl]
              simp [crgSegs, hl, hl2, ih, NodeList.upd_upd_same]
          | none =>
              by_cases hs : s = ""
              · subst hs
                simp [crgSegs, hl]
              · have hl2 : NodeList.lookup
                    (NodeList.push cs s (crgSegs Node.emptyGroup rest).1) s =
                    some (crgSegs Node.emptyGroup rest).1 := by
                  simp [NodeList.lookup_push, hl]
                simp [crgSegs, hl, hs, hl2, ih,
                  NodeList.upd_push_of_lookup_none _ _ _ _ hl]

/-! ### Lemmas about the column-copy loop of the read path -/

theorem updCol_of_not_mem (dst : List (String × List Val)) (k : String)
    (v : List Val) (h : k ∉ dst.map Prod.fst) : updCol dst k v = dst := by
  induction dst with
  | nil => simp [updCol]
  | cons p r ih =>
      simp only [List.map_cons, List.mem_cons, not_or] at h
      have h1 : ¬(p.1 = k) := fun hh => h.1 hh.symm
      have h2 := ih h.2
      simp only [updCol] at h2 ⊢
      simp [h1, h2]

theorem copyColumns_cons_not_mem (names : List String) (p : String × List Val)
    (src : List (String × List Val)) :
    ∀ dst, p.1 ∉ names →
    copyColumns (p :: dst) names src = p :: copyColumns dst names src := by
  induction names with
  | nil => intro dst _; simp [copyColumns]
  | cons nm rest ih =>
      intro dst h
      simp only [List.mem_cons, not_or] at h
      have hupd : updCol (p :: dst) nm ((alookup src nm).getD []) =
          p :: updCol dst nm ((alookup src nm).getD []) := by
        simp only [updCol, List.map_cons]
        rw [if_neg h.1]
      simp only [copyColumns, List.foldl_cons] at ih ⊢
      rw [hupd]
      exact ih _ h.2

theorem copyColumns_congr (names : List String)
    (src₁ src₂ : List (String × List Val))
    (h : ∀ m ∈ names, alookup src₁ m = alookup src₂ m) :
    ∀ dst, copyColumns dst names src₁ = copyColumns dst names src₂ := by
  induction names with
  | nil => intro dst; simp [copyColumns]
  | cons nm rest ih =>
      intro dst
      simp only [copyColumns, List.foldl_cons]
      rw [h nm (by simp)]
      exact ih (fun m hm => h m (by simp [hm])) _

theorem copyColumns_alloc (f : String → List Val) :
    ∀ cols : List (String × List Val), (cols.map Prod.fst).Nodup →
    copyColumns ((cols.map Prod.fst).map (fun nm => (nm, f nm)))
      (cols.map Prod.fst) cols = cols := by
  intro cols
  induction cols with
  | nil => intro _; simp [copyColumns]
  | cons p cr ih =>
      intro hn
      obtain ⟨k, v⟩ := p
      rw [List.map_cons, List.nodup_cons] at hn
      obtain ⟨hknot, hncr⟩ := hn
      have hkeys : ((cr.map Prod.fst).map (fun nm => (nm, f nm))).map Prod.fst =
          cr.map Prod.fst := by
        simp
      have h2 : updCol ((k, f k) :: (cr.map Prod.fst).map (fun nm => (nm, f nm))) k v =
          (k, v) :: (cr.map Prod.fst).map (fun nm => (nm, f nm)) := by
        have hdr2 : updCol ((cr.map Prod.fst).map (fun nm => (nm, f nm))) k v =
            (cr.map Prod.fst).map (fun nm => (nm, f nm)) :=
          updCol_of_not_mem _ k v (by rw [hkeys]; exact hknot)
        simp only [updCol] at hdr2 ⊢
        simp only [List.map_cons]
        rw [hdr2]
        simp
      have hstep : copyColumns ((k, f k) :: (cr.map Prod.fst).map (fun nm => (nm, f nm)))
          (k :: cr.map Prod.fst) ((k, v) :: cr) =
          copyColumns ((k, v) :: (cr.map Prod.fst).map (fun nm => (nm, f nm)))
          (cr.map Prod.fst) ((k, v) :: cr) := by
        simp only [copyColumns, List.foldl_cons]
        rw [show alookup ((k, v) :: cr) k = some v from by simp [alookup]]
        simp only [Option.getD_some]
        rw [h2]
      rw [List.map_cons, List.map_cons, hstep,
        copyColumns_cons_not_mem (cr.map Prod.fst) (k, v) ((k, v) :: cr) _ hknot,
        copyColumns_congr (cr.map Prod.fst) ((k, v) :: cr) cr
          (fun m hm => by
            have hmk : ¬(k = m) := fun he => hknot (he ▸ hm)
            simp [alookup, hmk]) _,
        ih hncr]

/-! ### Lemmas about attribute assignment folds -/

theorem alookup_append_of_none {α : Type} (a b : List (String × α)) (k : String)
    (h : alookup a k = none) : alookup (a ++ b) k = alookup b k := by
  induction a with
  | nil => simp
  | cons p r ih =>
      obtain ⟨k0, v0⟩ := p
      by_cases h0 : k0 = k
      · simp [alookup, h0] at h
      · simp [alookup, h0] at h ⊢
        exact ih h

theorem aset_append_of_none {α : Type} (a : List (String × α)) (k : String)
    (v : α) (h : alookup a k = none) : aset a k v = a ++ [(k, v)] := by
  induction a with
  | nil => simp [aset]
  | cons p r ih =>
      obtain ⟨k0, v0⟩ := p
      by_cases h0 : k0 = k
      · simp [alookup, h0] at h
      · simp [alookup, h0] at h
        simp [aset, h0, ih h]

theorem asetAll_of_disjoint {α : Type} : ∀ (kws a : List (String × α)),
    (∀ p ∈ kws, alookup a p.1 = none) → (kws.map Prod.fst).Nodup →
    asetAll a kws = a ++ kws := by
  intro kws
  induction kws with
  | nil => intro a _ _; simp [asetAll]
  | cons p rest ih =>
      intro a hdisj hnodup
      obtain ⟨k, v⟩ := p
      rw [List.map_cons, List.nodup_cons] at hnodup
      have h1 : alookup a k = none := hdisj (k, v) (by simp)
      have hstep : asetAll a ((k, v) :: rest) = asetAll (a ++ [(k, v)]) rest := by
        simp only [asetAll, List.foldl_cons]
        rw [aset_append_of_none a k v h1]
      have hdisj2 : ∀ q ∈ rest, alookup (a ++ [(k, v)]) q.1 = none := by
        intro q hq
        rw [alookup_append_of_none a _ q.1 (hdisj q (by simp [hq]))]
        have hqk : ¬(k = q.1) := by
          intro he
          exact hnodup.1 (he ▸ List.mem_map.mpr ⟨q, hq, rfl⟩)
        simp [alookup, hqk]
      rw [hstep, ih (a ++ [(k, v)]) hdisj2 hnodup.2, List.append_assoc]
      simp

theorem asetAll_nil_left {α : Type} (kws : List (String × α))
    (h : (kws.map Prod.fst).Nodup) : asetAll [] kws = kws := by
  simpa using asetAll_of_disjoint kws [] (fun p _ => by simp [alookup]) h

/-! ### Characterization of table discovery -/

theorem isRecordDataset_iff (o : Option Node) :
    isRecordDataset o = true ↔
      ∃ d a, o = some (.dataset d a) ∧ d.cols ≠ [] := by
  match o with
  | none => simp [isRecordDataset]
  | some (.dataset d a) =>
      constructor
      · intro h
        refine ⟨d, a, rfl, ?_⟩
        intro hc
        simp [isRecordDataset, hc] at h
      · rintro ⟨d', a', he, hc⟩
        obtain ⟨rfl, rfl⟩ : d = d' ∧ a = a' := by
          injection he with he2
          injection he2 with h1 h2
          exact ⟨h1, h2⟩
        simp only [isRecordDataset, Bool.not_eq_true']
        rw [List.isEmpty_eq_false_iff_exists_mem]
        match d, hc with
        | ⟨n, c :: cols⟩, _ => exact ⟨c.1, by simp⟩
  | some (.group a cs) => simp [isRecordDataset]

theorem _list_tables_mem (g : Node) (p q : String) :
    (p, q) ∈ _list_tables g ↔
      q = p ∧ p ∈ visitNames g ∧ isRecordDataset (findPath g p) = true := by
  simp only [_list_tables, List.mem_map, List.mem_filter]
  constructor
  · rintro ⟨i, ⟨hv, hr⟩, hpq⟩
    have hip : i = p := congrArg Prod.fst hpq
    have hiq : i = q := congrArg Prod.snd hpq
    subst hip
    exact ⟨hiq.symm, hv, hr⟩
  · rintro ⟨hq, hv, hr⟩
    exact ⟨p, ⟨hv, hr⟩, by rw [hq]⟩

theorem writeTableToGroup_no_fileExists (g : Node) (t : Table) (grp : String)
    (ig : Bool) (fb : String) (fn : String) :
    (writeTableToGroup g t grp ig fb).2 ≠ some (.fileExists fn) := by
  intro h
  rcases writeTableToGroup_err_shape g t grp ig fb _ h with ⟨m, hm⟩ | ⟨gr, nn, hm⟩ <;>
    cases hm

theorem childNames_setAtSegs_cons (g : Node) (s : String) (rest : List String)
    (r : Node) :
    Node.childNames (setAtSegs g (s :: rest) r) = Node.childNames g := by
  match g with
  | .dataset d a => simp [setAtSegs]
  | .group a cs =>
      cases hl : NodeList.lookup cs s with
      | none => simp [setAtSegs, hl]
      | some c =>
          simp [setAtSegs, hl, Node.childNames, Node.children, NodeList.names_upd]

/-! ### Claim theorems -/

/-- C4: path resolution is idempotent — running `_create_required_groups`
twice with the same path, from any starting group, leaves the group tree
(and the outcome) exactly as after running it once, so repeated resolution
never creates duplicate intermediate groups. -/
theorem claim_C4_ensure_path_idempotent (g : Node) (path : String) :
    _create_required_groups (_create_required_groups g path).1 path =
      _create_required_groups g path :=
  crgSegs_idem (pySplit path '/') g

/-- C5: table discovery reports exactly the record datasets: a pair is an
entry of `_list_tables g` iff its value equals its key, the key is a
descendant path produced by the visit, and that path resolves to a dataset
whose compound type has at least one named field; in particular no group
and no non-record dataset is ever reported. -/
theorem claim_C5_discovery_exactly_record_datasets (g : Node) (p q : String) :
    (p, q) ∈ _list_tables g ↔
      q = p ∧ p ∈ visitNames g ∧
        ∃ d a, findPath g p = some (.dataset d a) ∧ d.cols ≠ [] := by
  rw [_list_tables_mem, isRecordDataset_iff]

/-- Evaluation of `write` on an already-open handle target. -/
theorem write_handle_eq (fs : FS) (n : Node) (t : Table) (cp : Bool)
    (grp : String) (a o ig : Bool) :
    write fs (.handle n) t cp grp a o ig =
      (let p0 : Node × Option Err :=
        if grp ≠ "" then
          if containsPath n grp then (n, none)
          else createGroupSegs n (pySplit grp '/')
        else (n, none)
      match p0.2 with
      | some e => ⟨fs, some p0.1, some e, 0, 0⟩
      | none =>
          let gpath := if grp ≠ "" then pySplit grp '/' else []
          let sub := (findSegs p0.1 gpath).getD p0.1
          let p := writeTableToGroup sub t grp ig "Table"
          ⟨fs, some (setAtSegs p0.1 gpath p.1), p.2, 0, 0⟩) := rfl

/-- C10: a write whose target is an already-open handle never touches the
file system (no existence check, no deletion, no file-exists error) and
ignores the `append` and `overwrite` flags entirely; the requested group is
reused when it already exists under the handle and created otherwise. -/
theorem claim_C10_handle_write_no_fs (fs : FS) (n : Node) (t : Table)
    (cp : Bool) (grp : String) (a1 o1 a2 o2 ig : Bool) :
    (write fs (.handle n) t cp grp a1 o1 ig =
      write fs (.handle n) t cp grp a2 o2 ig) ∧
    (write fs (.handle n) t cp grp a1 o1 ig).fs = fs ∧
    (∀ fn, (write fs (.handle n) t cp grp a1 o1 ig).err ≠ some (.fileExists fn)) ∧
    (grp ≠ "" → containsPath n grp = true →
      ∃ g2, (write fs (.handle n) t cp grp a1 o1 ig).hnode = some g2 ∧
        Node.childNames g2 = Node.childNames n) ∧
    (∀ attrs cs, n = .group attrs cs → grp ≠ "" → pySplit grp '/' = [grp] →
      containsPath n grp = false →
      ∃ g2, (write fs (.handle n) t cp grp a1 o1 ig).hnode = some g2 ∧
        Node.childNames g2 = Node.childNames n ++ [grp]) := by
  refine ⟨rfl, ?_, ?_, ?_, ?_⟩
  · rw [write_handle_eq]
    by_cases hg : grp = ""
    · simp [hg]
    · by_cases hc : containsPath n grp
      · simp [hg, hc]
      · cases hq : (createGroupSegs n (pySplit grp '/')).2 with
        | some e => simp [hg, hc, hq]
        | none => simp [hg, hc, hq]
  · intro fn
    rw [write_handle_eq]
    by_cases hg : grp = ""
    · simp only [hg, ne_eq, not_true_eq_false, if_false, ite_false]
      simp [findSegs]
      exact fun h => writeTableToGroup_no_fileExists n t "" ig "Table" fn h
    · by_cases hc : containsPath n grp
      · simp [hg, hc, findSegs]
        intro h
        exact writeTableToGroup_no_fileExists _ t grp ig "Table" fn h
      · cases hq : (createGroupSegs n (pySplit grp '/')).2 with
        | some e =>
            simp [hg, hc, hq]
            intro h
            subst h
            rcases createGroupSegs_err_shape _ n _ hq with ⟨m, hm⟩
            cases hm
        | none =>
            simp [hg, hc, hq]
            intro h
            exact writeTableToGroup_no_fileExists _ t grp ig "Table" fn h
  · intro hg hc
    rw [write_handle_eq]
    match hsp : pySplit grp '/' with
    | [] => exact absurd hsp (pySplit_ne_nil grp '/')
    | s :: rest =>
        refine ⟨setAtSegs n (s :: rest)
          (writeTableToGroup ((findSegs n (s :: rest)).getD n) t grp ig "Table").1,
          ?_, ?_⟩
        · simp [hg, hc]
        · exact childNames_setAtSegs_cons n s rest _
  · intro attrs cs hn hg hsp hc
    subst hn
    have hlk : NodeList.lookup cs grp = none := by
      have h2 := hc
      simp only [containsPath, findPath, hsp, findSegs] at h2
      cases hl2 : NodeList.lookup cs grp with
      | none => rfl
      | some c =>
          rw [Node.childNamed_group, hl2] at h2
          simp at h2
    have hcreate : createGroupSegs (.group attrs cs) [grp] =
        (.group attrs (NodeList.push cs grp Node.emptyGroup), none) := by
      simp [createGroupSegs, hg, hlk]
    rw [write_handle_eq]
    refine ⟨setAtSegs (Node.group attrs (cs.push grp Node.emptyGroup)) [grp]
      (writeTableToGroup ((findSegs (Node.group attrs (cs.push grp Node.emptyGroup))
        [grp]).getD (Node.group attrs (cs.push grp Node.emptyGroup))) t grp ig
        "Table").1, ?_, ?_⟩
    · simp [hg, hc, hcreate, hsp]
    · rw [childNames_setAtSegs_cons]
      simp [Node.childNames, Node.children, NodeList.names_push]

@[simp] theorem Node.childNamed_setNodeAttrs (g : Node) (kws : List (String × Val))
    (k : String) :
    Node.childNamed (Node.setNodeAttrs g kws) k = Node.childNamed g k := by
  cases g <;> rfl

/-- C2: when the resolved final write name already names an existing
dataset directly under the target group, the single-table write and the
table-set write both fail with the table-already-exists error, and the
pre-existing dataset (data and attributes) is still bound to that name
afterwards — it is never overwritten. -/
theorem claim_C2_noclobber :
    (∀ (fs : FS) (g : Node) (t : Table) (cp ig ap ov : Bool) (d : TableData)
        (a : List (String × Val)),
      pySplit (resolvedWriteName t "Table" ig) '/' =
          [resolvedWriteName t "Table" ig] →
      Node.childNamed g (resolvedWriteName t "Table" ig) = some (.dataset d a) →
      (write fs (.handle g) t cp "" ap ov ig).err =
          some (.tableAlreadyExists "" (resolvedWriteName t "Table" ig)) ∧
        (write fs (.handle g) t cp "" ap ov ig).hnode = some g) ∧
    (∀ (fs : FS) (fn : String) (root : Node) (S : TableSet) (cp ig ov : Bool)
        (pre post : List Table) (tj : Table) (d : TableData)
        (a : List (String × Val)),
      alookup fs fn = some root →
      S.tables = pre ++ tj :: post →
      (writeSetTables "" ig (Node.setNodeAttrs root S.keywords) pre 0).2 = none →
      pySplit (resolvedWriteName tj (fallbackName pre.length) ig) '/' =
          [resolvedWriteName tj (fallbackName pre.length) ig] →
      Node.childNamed root (resolvedWriteName tj (fallbackName pre.length) ig) =
          some (.dataset d a) →
      (write_set fs fn S cp "" true ov ig).err =
          some (.tableAlreadyExists ""
            (resolvedWriteName tj (fallbackName pre.length) ig)) ∧
        ∃ gfinal, alookup (write_set fs fn S cp "" true ov ig).fs fn = some gfinal ∧
          Node.childNamed gfinal
              (resolvedWriteName tj (fallbackName pre.length) ig) =
            some (.dataset d a)) := by
  constructor
  · intro fs g t cp ig ap ov d a hsp hch
    have hcol := writeTableToGroup_collision g t "" ig "Table" hsp
      (Node.hasKey_of_childNamed hch)
    rw [write_handle_eq]
    simp [findSegs, hcol, setAtSegs]
  · intro fs fn root S cp ig ov pre post tj d a hfs htab hpre hsp hch
    have hch_sub : Node.childNamed (Node.setNodeAttrs root S.keywords)
        (resolvedWriteName tj (fallbackName pre.length) ig) =
        some (.dataset d a) := by
      rw [Node.childNamed_setNodeAttrs]
      exact hch
    have hch1 : Node.childNamed
        (writeSetTables "" ig (Node.setNodeAttrs root S.keywords) pre 0).1
        (resolvedWriteName tj (fallbackName pre.length) ig) =
        some (.dataset d a) :=
      writeSetTables_preserves_dataset "" ig pre _ 0 _ d a hch_sub
    have hcol := writeTableToGroup_collision
      (writeSetTables "" ig (Node.setNodeAttrs root S.keywords) pre 0).1 tj ""
      ig (fallbackName pre.length) hsp (Node.hasKey_of_childNamed hch1)
    have hpair : writeSetTables "" ig (Node.setNodeAttrs root S.keywords) pre 0 =
        ((writeSetTables "" ig (Node.setNodeAttrs root S.keywords) pre 0).1,
          none) := by
      rw [← hpre]
    have hfold : writeSetTables "" ig (Node.setNodeAttrs root S.keywords)
        S.tables 0 =
        ((writeSetTables "" ig (Node.setNodeAttrs root S.keywords) pre 0).1,
          some (.tableAlreadyExists ""
            (resolvedWriteName tj (fallbackName pre.length) ig))) := by
      rw [htab, writeSetTables_append, hpair]
      simp only [Nat.zero_add]
      simp [writeSetTables, hcol]
    have hws : write_set fs fn S cp "" true ov ig =
        ⟨fsInsert fs fn
            (writeSetTables "" ig (Node.setNodeAttrs root S.keywords) pre 0).1,
          some (.tableAlreadyExists ""
            (resolvedWriteName tj (fallbackName pre.length) ig)), 1, 0⟩ := by
      simp [write_set, _check_h5py_installed, h5py_installed, writeSetOpen,
        _get_group, hfs, findSegs, hfold, setAtSegs]
    rw [hws]
    exact ⟨rfl, (writeSetTables "" ig (Node.setNodeAttrs root S.keywords) pre 0).1,
      alookup_aset_self fs fn _, hch1⟩

/-- C6: the file-target open policy.  Exclusive mode on an existing file
fails with the file-exists error (file system untouched) unless `overwrite`
is set, in which case the run is exactly the run on the file system with
that file deleted first.  Append mode opens an existing file in place (its
datasets are still present afterwards) and creates a missing file just as
exclusive mode does.  `_get_group` keeps an existing root in append mode
and starts from an empty root otherwise. -/
theorem claim_C6_file_open_policy :
    (∀ (fs : FS) (fn : String) (t : Table) (cp : Bool) (grp : String)
        (ig : Bool) (root : Node), alookup fs fn = some root →
      write fs (.file fn) t cp grp false false ig =
        ⟨fs, none, some (.fileExists fn), 0, 0⟩) ∧
    (∀ (fs : FS) (fn : String) (S : TableSet) (cp : Bool) (grp : String)
        (ig : Bool) (root : Node), alookup fs fn = some root →
      write_set fs fn S cp grp false false ig =
        ⟨fs, some (.fileExists fn), 0, 0⟩) ∧
    (∀ (fs : FS) (fn : String) (t : Table) (cp : Bool) (grp : String)
        (ig : Bool) (root : Node), alookup fs fn = some root →
      write fs (.file fn) t cp grp false true ig =
        write (fsErase fs fn) (.file fn) t cp grp false true ig) ∧
    (∀ (fs : FS) (fn : String) (S : TableSet) (cp : Bool) (grp : String)
        (ig : Bool) (root : Node), alookup fs fn = some root →
      write_set fs fn S cp grp false true ig =
        write_set (fsErase fs fn) fn S cp grp false true ig) ∧
    (∀ (fs : FS) (fn : String) (t : Table) (cp ov ig : Bool) (root : Node)
        (nm : String) (d : TableData) (a : List (String × Val)),
      alookup fs fn = some root →
      Node.childNamed root nm = some (.dataset d a) →
      ∃ root2, alookup (write fs (.file fn) t cp "" true ov ig).fs fn =
          some root2 ∧ Node.childNamed root2 nm = some (.dataset d a)) ∧
    (∀ (fs : FS) (fn : String) (t : Table) (cp ov ig : Bool) (grp : String),
      alookup fs fn = none →
      write fs (.file fn) t cp grp true ov ig =
        write fs (.file fn) t cp grp false ov ig) ∧
    (∀ (r : Node) (x : Option Node),
      _get_group (some r) "" true = ⟨r, [], none⟩ ∧
      _get_group x "" false = ⟨Node.emptyGroup, [], none⟩) := by
  refine ⟨?_, ?_, ?_, ?_, ?_, ?_, ?_⟩
  · intro fs fn t cp grp ig root hfs
    simp [write, _check_h5py_installed, h5py_installed, hfs]
  · intro fs fn S cp grp ig root hfs
    simp [write_set, _check_h5py_installed, h5py_installed, hfs]
  · intro fs fn t cp grp ig root hfs
    simp [write, _check_h5py_installed, h5py_installed, hfs,
      alookup_fsErase_self]
  · intro fs fn S cp grp ig root hfs
    simp [write_set, _check_h5py_installed, h5py_installed, hfs,
      alookup_fsErase_self]
  · intro fs fn t cp ov ig root nm d a hfs hch
    refine ⟨(writeTableToGroup root t "" ig "Table").1, ?_,
      writeTableToGroup_preserves_dataset root t "" ig "Table" nm d a hch⟩
    simp [write, _check_h5py_installed, h5py_installed, hfs, writeFileCase,
      _get_group, findSegs, setAtSegs, fsInsert, alookup_aset_self]
  · intro fs fn t cp ov ig grp hfs
    have hgg : _get_group none grp true = _get_group none grp false := by
      by_cases hg : grp = ""
      · simp [_get_group, hg]
      · simp [_get_group, hg, Node.hasKey, Node.childNamed, Node.children,
          Node.emptyGroup, NodeList.lookup]
    simp [write, _check_h5py_installed, h5py_installed, hfs, writeFileCase, hgg]
  · intro r x
    constructor
    · simp [_get_group]
    · simp [_get_group]

/-- C3: a single-table read with no requested name succeeds exactly when
discovery finds exactly one table: with a unique discovered table it
behaves exactly like reading that table by name and succeeds with its
name; with zero or several discovered tables it fails with the ambiguity
error carrying the full list of discovered names. -/
theorem claim_C3_discovery_ambiguity (fs : FS) (fn : String) (root : Node)
    (t0 : Table) (hfs : alookup fs fn = some root) :
    (∀ k, _list_tables root = [(k, k)] →
      read fs (.file fn) t0 none = read fs (.file fn) t0 (some k) ∧
      (read fs (.file fn) t0 none).err = none ∧
      (read fs (.file fn) t0 none).table.table_name = k) ∧
    ((_list_tables root).length ≠ 1 →
      (read fs (.file fn) t0 none).err =
        some (.ambiguousTable ((_list_tables root).map Prod.fst))) := by
  constructor
  · intro k hl
    have hmem : (k, k) ∈ _list_tables root := by rw [hl]; simp
    have hrec := ((_list_tables_mem root k k).mp hmem).2.2
    obtain ⟨d, a, hfp, hcols⟩ := (isRecordDataset_iff _).mp hrec
    refine ⟨?_, ?_, ?_⟩
    · simp [read, _check_h5py_installed, h5py_installed, hfs, readFromGroup, hl]
    · simp [read, _check_h5py_installed, h5py_installed, hfs, readFromGroup,
        hl, hfp]
    · simp [read, _check_h5py_installed, h5py_installed, hfs, readFromGroup,
        hl, hfp]
  · intro hne
    cases hl : _list_tables root with
    | nil =>
        simp [read, _check_h5py_installed, h5py_installed, hfs, readFromGroup, hl]
    | cons x rest =>
        cases rest with
        | nil =>
            rw [hl] at hne
            simp at hne
        | cons y rest2 =>
            simp [read, _check_h5py_installed, h5py_installed, hfs,
              readFromGroup, hl]

/-- Shared computation for the write-then-read round trip on a fresh file:
with a slash-free resolved name, a non-empty nodup column list, the write
creates exactly one dataset holding the table's data with its keywords as
attributes, and the read restores name, row count and columns — but resets
the keywords to empty. -/
theorem roundtrip_core (fs : FS) (fn : String) (t t2 : Table) (nm : String)
    (hfs : alookup fs fn = none)
    (hnm : (if t.table_name = "" then "Table" else t.table_name) = nm)
    (hsp : pySplit nm '/' = [nm]) (hne : nm ≠ "")
    (hcols : t.data.cols ≠ [])
    (hnodup : (t.data.cols.map Prod.fst).Nodup) :
    write fs (.file fn) t false "" false false false =
      ⟨fsInsert fs fn (.group [] (.cons nm
          (.dataset t.data (asetAll [] t.keywords)) .nil)), none, none, 1, 1⟩ ∧
    read (fsInsert fs fn (.group [] (.cons nm
          (.dataset t.data (asetAll [] t.keywords)) .nil))) (.file fn) t2 none =
      ⟨⟨nm, ⟨t.data.nrows, t.data.cols⟩, []⟩, none, 1, 1⟩ := by
  have hdir : dirname nm = "" := dirname_of_single nm hsp
  have hwtg : writeTableToGroup Node.emptyGroup t "" false "Table" =
      (.group [] (.cons nm (.dataset t.data (asetAll [] t.keywords)) .nil),
        none) := by
    simp only [writeTableToGroup, resolvedWriteName, ne_eq, ite_not, hnm]
    simp [hdir, Node.hasKey, Node.childNamed, Node.children, Node.emptyGroup,
      NodeList.lookup, createDataset, hsp, createDatasetSegs, hne,
      NodeList.push, setAttrsAtSegs, NodeList.upd]
  constructor
  · simp [write, _check_h5py_installed, h5py_installed, hfs, writeFileCase,
      _get_group, findSegs, setAtSegs, hwtg]
  · have hfind : findPath (.group [] (.cons nm
        (.dataset t.data (asetAll [] t.keywords)) .nil)) nm =
        some (.dataset t.data (asetAll [] t.keywords)) := by
      simp [findPath, hsp, findSegs, Node.childNamed, Node.children,
        NodeList.lookup]
    have hrec : isRecordDataset (findPath (.group [] (.cons nm
        (.dataset t.data (asetAll [] t.keywords)) .nil)) nm) = true := by
      rw [hfind]
      simp only [isRecordDataset, Bool.not_eq_true']
      rw [List.isEmpty_eq_false_iff_exists_mem]
      match t.data, hcols with
      | ⟨n, c :: cols⟩, _ => exact ⟨c.1, by simp⟩
    have hlist : _list_tables (.group [] (.cons nm
        (.dataset t.data (asetAll [] t.keywords)) .nil)) = [(nm, nm)] := by
      simp only [_list_tables, visitNames, visitChildren, List.map_nil,
        List.append_nil, List.nil_append]
      rw [List.filter_cons_of_pos (by simpa using hrec)]
      simp
    have hcopy := copyColumns_alloc
      (fun _ => List.replicate t.data.nrows (Val.vInt 0)) t.data.cols hnodup
    simp only [List.map_map] at hcopy
    simp [read, _check_h5py_installed, h5py_installed, alookup_aset_self,
      fsInsert, readFromGroup, hlist, hfind, setup_table, hcopy, Table.reset]

/-- C1 (corrected, amended): writing a table with at least one column,
distinct column names and a slash-free table name to a fresh file and
reading it back succeeds and yields the same row count, the same column
names, and elementwise-equal column data — but the keywords come back
empty, because the single-table read never copies the dataset's attributes
back into the table. -/
theorem claim_C1_roundtrip_amended (fs : FS) (fn : String) (t t2 : Table)
    (hfs : alookup fs fn = none)
    (hname : pySplit t.table_name '/' = [t.table_name])
    (hcols : t.data.cols ≠ [])
    (hnodup : (t.data.cols.map Prod.fst).Nodup) :
    (write fs (.file fn) t false "" false false false).err = none ∧
    (read (write fs (.file fn) t false "" false false false).fs (.file fn)
        t2 none).err = none ∧
    (read (write fs (.file fn) t false "" false false false).fs (.file fn)
        t2 none).table.data.nrows = t.data.nrows ∧
    (read (write fs (.file fn) t false "" false false false).fs (.file fn)
        t2 none).table.data.cols.map Prod.fst = t.data.cols.map Prod.fst ∧
    (read (write fs (.file fn) t false "" false false false).fs (.file fn)
        t2 none).table.data.cols = t.data.cols ∧
    (read (write fs (.file fn) t false "" false false false).fs (.file fn)
        t2 none).table.keywords = [] := by
  by_cases htn : t.table_name = ""
  · have hco := roundtrip_core fs fn t t2 "Table" hfs (by simp [htn])
      (by decide) (by decide) hcols hnodup
    simp [hco.1, hco.2]
  · have hco := roundtrip_core fs fn t t2 t.table_name hfs (by simp [htn])
      hname htn hcols hnodup
    simp [hco.1, hco.2]

/-- C1 counterexample: the claim's "equal keywords" clause is false — a
table written with a keyword reads back with empty keywords. -/
theorem claim_C1_counterexample :
    (read (write [] (.file "f")
          ⟨"t1", ⟨1, [("x", [.vInt 5])]⟩, [("units", .vStr "m")]⟩
          false "" false false false).fs (.file "f") ⟨"", ⟨0, []⟩, []⟩
        none).table.keywords ≠
      (⟨"t1", ⟨1, [("x", [.vInt 5])]⟩, [("units", .vStr "m")]⟩ : Table).keywords := by
  decide

/-- C1 witness: the amended round-trip theorem applied to a concrete
two-row table on a fresh file system. -/
theorem claim_C1_roundtrip_witness :
    (write [] (.file "f") ⟨"t1", ⟨2, [("x", [.vInt 5, .vInt 6])]⟩, []⟩
        false "" false false false).err = none ∧
    (read (write [] (.file "f") ⟨"t1", ⟨2, [("x", [.vInt 5, .vInt 6])]⟩, []⟩
        false "" false false false).fs (.file "f") ⟨"", ⟨0, []⟩, []⟩
        none).err = none ∧
    (read (write [] (.file "f") ⟨"t1", ⟨2, [("x", [.vInt 5, .vInt 6])]⟩, []⟩
        false "" false false false).fs (.file "f") ⟨"", ⟨0, []⟩, []⟩
        none).table.data.nrows = 2 ∧
    (read (write [] (.file "f") ⟨"t1", ⟨2, [("x", [.vInt 5, .vInt 6])]⟩, []⟩
        false "" false false false).fs (.file "f") ⟨"", ⟨0, []⟩, []⟩
        none).table.data.cols.map Prod.fst = ["x"] ∧
    (read (write [] (.file "f") ⟨"t1", ⟨2, [("x", [.vInt 5, .vInt 6])]⟩, []⟩
        false "" false false false).fs (.file "f") ⟨"", ⟨0, []⟩, []⟩
        none).table.data.cols = [("x", [.vInt 5, .vInt 6])] ∧
    (read (write [] (.file "f") ⟨"t1", ⟨2, [("x", [.vInt 5, .vInt 6])]⟩, []⟩
        false "" false false false).fs (.file "f") ⟨"", ⟨0, []⟩, []⟩
        none).table.keywords = [] := by
  have h := claim_C1_roundtrip_amended [] "f"
    ⟨"t1", ⟨2, [("x", [.vInt 5, .vInt 6])]⟩, []⟩ ⟨"", ⟨0, []⟩, []⟩
    rfl (by decide) (by decide) (by decide)
  exact h

theorem NodeList.appendList_nil (cs : NodeList) :
    NodeList.appendList cs .nil = cs := by
  induction cs using NodeList.inductionOn with
  | hnil => rfl
  | hcons nm c rest ih => simp [NodeList.appendList, ih]

theorem NodeList.appendList_push (cs : NodeList) (nm : String) (v : Node)
    (l : NodeList) :
    NodeList.appendList (NodeList.push cs nm v) l =
      NodeList.appendList cs (.cons nm v l) := by
  induction cs using NodeList.inductionOn with
  | hnil => rfl
  | hcons nm0 c rest ih => simp [NodeList.push, NodeList.appendList, ih]

/-- One table-set write step on a group that does not yet contain the
resolved name: it appends exactly one dataset holding the table's data
with its keywords as attributes. -/
theorem writeTableToGroup_fresh (a : List (String × Val)) (cs : NodeList)
    (t : Table) (fb : String) (nm : String)
    (hnm : (if t.table_name = "" then fb else t.table_name) = nm)
    (hsp : pySplit nm '/' = [nm]) (hne : nm ≠ "")
    (hlk : NodeList.lookup cs nm = none) :
    writeTableToGroup (.group a cs) t "" false fb =
      (.group a (cs.push nm (.dataset t.data (asetAll [] t.keywords))), none) := by
  have hdir : dirname nm = "" := dirname_of_single nm hsp
  have hlp : NodeList.lookup (cs.push nm (.dataset t.data [])) nm =
      some (.dataset t.data []) := by
    simp [NodeList.lookup_push, hlk]
  have hup := NodeList.upd_push_of_lookup_none cs nm (.dataset t.data [])
    (.dataset t.data (asetAll [] t.keywords)) hlk
  simp only [writeTableToGroup, resolvedWriteName, ne_eq, ite_not, hnm]
  simp [hdir, Node.hasKey, Node.childNamed, Node.children, hlk, createDataset,
    hsp, createDatasetSegs, hne, setAttrsAtSegs, hlp, hup]

/-- The table-set write loop on a group that contains none of the resolved
names: with slash-free, pairwise-distinct names it succeeds and appends,
in stored order, one dataset per table under its resolved name. -/
theorem writeSetTables_fresh : ∀ (ts : List Table) (i : Nat)
    (a : List (String × Val)) (cs : NodeList),
    (∀ nm ∈ setWriteNames ts i,
      pySplit nm '/' = [nm] ∧ nm ≠ "" ∧ NodeList.lookup cs nm = none) →
    (setWriteNames ts i).Nodup →
    writeSetTables "" false (.group a cs) ts i =
      (.group a (NodeList.appendList cs (expectedSetChildren ts i)), none) := by
  intro ts
  induction ts with
  | nil =>
      intro i a cs _ _
      simp [writeSetTables, expectedSetChildren, NodeList.appendList_nil]
  | cons t rest ih =>
      intro i a cs hok hnodup
      have hmem0 : (if t.table_name ≠ "" then t.table_name else fallbackName i) ∈
          setWriteNames (t :: rest) i := by
        rw [setWriteNames]
        exact List.mem_cons_self _ _
      obtain ⟨hsp, hne, hlk⟩ := hok _ hmem0
      have hnm : (if t.table_name = "" then fallbackName i else t.table_name) =
          (if t.table_name ≠ "" then t.table_name else fallbackName i) := by
        by_cases h : t.table_name = "" <;> simp [h]
      have hstep := writeTableToGroup_fresh a cs t (fallbackName i)
        (if t.table_name ≠ "" then t.table_name else fallbackName i)
        hnm hsp hne hlk
      rw [setWriteNames, List.nodup_cons] at hnodup
      have hrest : ∀ nm ∈ setWriteNames rest (i + 1),
          pySplit nm '/' = [nm] ∧ nm ≠ "" ∧
          NodeList.lookup (cs.push
            (if t.table_name ≠ "" then t.table_name else fallbackName i)
            (.dataset t.data (asetAll [] t.keywords))) nm = none := by
        intro nm hm
        have h3 := hok nm (by rw [setWriteNames]; exact List.mem_cons_of_mem _ hm)
        refine ⟨h3.1, h3.2.1, ?_⟩
        have hne2 : (if t.table_name ≠ "" then t.table_name else fallbackName i)
            ≠ nm := fun he => hnodup.1 (he ▸ hm)
        have hne2f : ¬(if t.table_name = "" then fallbackName i
            else t.table_name) = nm := by
          rw [hnm]
          exact hne2
        simp [NodeList.lookup_push, h3.2.2, hne2f]
      calc writeSetTables "" false (.group a cs) (t :: rest) i
      _ = writeSetTables "" false (.group a (cs.push
            (if t.table_name ≠ "" then t.table_name else fallbackName i)
            (.dataset t.data (asetAll [] t.keywords)))) rest (i + 1) := by
            simp only [writeSetTables, hstep]
      _ = (.group a (NodeList.appendList cs
            (expectedSetChildren (t :: rest) i)), none) := by
            rw [ih (i + 1) a _ hrest hnodup.2, expectedSetChildren,
              NodeList.appendList_push]

/-- C9: for every table set whose resolved write names are slash-free,
non-empty and pairwise distinct, the table-set write to a fresh file
succeeds and creates exactly one dataset per table, in the set's stored
order, each table at zero-based index `i` under its own `table_name` when
non-empty and under the zero-padded positional fallback name otherwise,
holding that table's data with its keywords as dataset attributes; the
file-level keywords are attached as attributes of the container root. -/
theorem claim_C9_writeset_fallback_naming (fs : FS) (fn : String)
    (S : TableSet) (hfs : alookup fs fn = none)
    (hok : ∀ nm ∈ setWriteNames S.tables 0, pySplit nm '/' = [nm] ∧ nm ≠ "")
    (hnodup : (setWriteNames S.tables 0).Nodup) :
    (write_set fs fn S false "" false false false).err = none ∧
    alookup (write_set fs fn S false "" false false false).fs fn =
      some (.group (asetAll [] S.keywords) (expectedSetChildren S.tables 0)) := by
  have hfold := writeSetTables_fresh S.tables 0 (asetAll [] S.keywords) .nil
    (fun nm hm => ⟨(hok nm hm).1, (hok nm hm).2, rfl⟩) hnodup
  have hws : write_set fs fn S false "" false false false =
      ⟨fsInsert fs fn (.group (asetAll [] S.keywords)
        (expectedSetChildren S.tables 0)), none, 1, 1⟩ := by
    simp [write_set, _check_h5py_installed, h5py_installed, writeSetOpen,
      _get_group, hfs, findSegs, Node.setNodeAttrs, Node.emptyGroup,
      setAtSegs, hfold, NodeList.appendList]
  rw [hws]
  exact ⟨rfl, alookup_aset_self fs fn _⟩

/-! ### Handle open/close accounting -/

theorem readFromGroup_opened (g : Node) (own : Bool) (t : Table)
    (arg : Option String) :
    (readFromGroup g own t arg).opened = if own then 1 else 0 := by
  unfold readFromGroup
  cases arg with
  | some tn =>
      cases hf : findPath g tn with
      | none => simp [hf]
      | some nd =>
          match nd with
          | .dataset d a => simp [hf]
          | .group a cs => simp [hf]
  | none =>
      cases hl : _list_tables g with
      | nil => simp [hl]
      | cons x rest =>
          obtain ⟨k, q⟩ := x
          cases rest with
          | nil =>
              cases hf : findPath g k with
              | none => simp [hl, hf]
              | some nd =>
                  match nd with
                  | .dataset d a => simp [hl, hf]
                  | .group a cs => simp [hl, hf]
          | cons y r2 => simp [hl]

theorem readFromGroup_closed (g : Node) (own : Bool) (t : Table)
    (arg : Option String) :
    (readFromGroup g own t arg).closed =
      if (readFromGroup g own t arg).err = none then (if own then 1 else 0)
      else 0 := by
  unfold readFromGroup
  cases arg with
  | some tn =>
      cases hf : findPath g tn with
      | none => simp [hf]
      | some nd =>
          match nd with
          | .dataset d a => simp [hf]
          | .group a cs => simp [hf]
  | none =>
      cases hl : _list_tables g with
      | nil => simp [hl]
      | cons x rest =>
          obtain ⟨k, q⟩ := x
          cases rest with
          | nil =>
              cases hf : findPath g k with
              | none => simp [hl, hf]
              | some nd =>
                  match nd with
                  | .dataset d a => simp [hl, hf]
                  | .group a cs => simp [hl, hf]
          | cons y r2 => simp [hl]

theorem read_file_counters (fs : FS) (fn : String) (t : Table)
    (arg : Option String) :
    ((read fs (.file fn) t arg).err = none →
      (read fs (.file fn) t arg).opened = 1 ∧
      (read fs (.file fn) t arg).closed = 1) ∧
    ((read fs (.file fn) t arg).err ≠ none →
      (read fs (.file fn) t arg).closed = 0) := by
  cases hl : alookup fs fn with
  | none =>
      constructor
      · intro h
        simp [read, _check_h5py_installed, h5py_installed, hl] at h
      · intro _
        simp [read, _check_h5py_installed, h5py_installed, hl]
  | some root =>
      have ho := readFromGroup_opened root true (Table.reset t) arg
      have hc := readFromGroup_closed root true (Table.reset t) arg
      have hr : read fs (.file fn) t arg =
          readFromGroup root true (Table.reset t) arg := by
        simp [read, _check_h5py_installed, h5py_installed, hl]
      rw [hr]
      constructor
      · intro h
        rw [h] at hc
        simp at hc
        exact ⟨ho, hc⟩
      · intro h
        rw [hc]
        simp [h]

theorem read_handle_counters (fs : FS) (n : Node) (t : Table)
    (arg : Option String) :
    (read fs (.handle n) t arg).opened = 0 ∧
    (read fs (.handle n) t arg).closed = 0 := by
  have ho := readFromGroup_opened n false (Table.reset t) arg
  have hc := readFromGroup_closed n false (Table.reset t) arg
  have hr : read fs (.handle n) t arg =
      readFromGroup n false (Table.reset t) arg := by
    simp [read, _check_h5py_installed, h5py_installed]
  rw [hr]
  refine ⟨ho, ?_⟩
  rw [hc]
  split <;> rfl

theorem write_file_counters (fs : FS) (fn : String) (t : Table) (cp : Bool)
    (grp : String) (ap ov ig : Bool) :
    ((write fs (.file fn) t cp grp ap ov ig).err = none →
      (write fs (.file fn) t cp grp ap ov ig).opened = 1 ∧
      (write fs (.file fn) t cp grp ap ov ig).closed = 1) ∧
    ((write fs (.file fn) t cp grp ap ov ig).err ≠ none →
      (write fs (.file fn) t cp grp ap ov ig).closed = 0) := by
  have hwf : ∀ fs2 : FS,
      ((writeFileCase fs2 fn t grp ap ig).err = none →
        (writeFileCase fs2 fn t grp ap ig).opened = 1 ∧
        (writeFileCase fs2 fn t grp ap ig).closed = 1) ∧
      ((writeFileCase fs2 fn t grp ap ig).err ≠ none →
        (writeFileCase fs2 fn t grp ap ig).closed = 0) := by
    intro fs2
    unfold writeFileCase
    cases he : (_get_group (alookup fs2 fn) grp ap).err with
    | some e => simp [he]
    | none =>
        simp only [he]
        constructor
        · intro h
          try simp at h
          simp [h]
        · intro h
          try simp at h
          simp [Option.isNone_iff_eq_none, h]
  simp only [write, _check_h5py_installed, h5py_installed, if_true]
  by_cases hex : ((alookup fs fn).isSome && !ap) = true
  · rw [if_pos hex]
    by_cases hov : ov
    · rw [if_pos hov]
      exact hwf (fsErase fs fn)
    · rw [if_neg hov]
      constructor
      · intro h
        simp at h
      · intro _
        rfl
  · rw [if_neg hex]
    exact hwf fs

theorem write_handle_counters (fs : FS) (n : Node) (t : Table) (cp : Bool)
    (grp : String) (ap ov ig : Bool) :
    (write fs (.handle n) t cp grp ap ov ig).opened = 0 ∧
    (write fs (.handle n) t cp grp ap ov ig).closed = 0 := by
  rw [write_handle_eq]
  by_cases hg : grp = ""
  · simp [hg]
  · by_cases hc : containsPath n grp
    · simp [hg, hc]
    · cases hq : (createGroupSegs n (pySplit grp '/')).2 with
      | some e => simp [hg, hc, hq]
      | none => simp [hg, hc, hq]

theorem write_set_counters (fs : FS) (fn : String) (S : TableSet) (cp : Bool)
    (grp : String) (ap ov ig : Bool) :
    ((write_set fs fn S cp grp ap ov ig).err = none →
      (write_set fs fn S cp grp ap ov ig).opened = 1 ∧
      (write_set fs fn S cp grp ap ov ig).closed = 1) ∧
    ((write_set fs fn S cp grp ap ov ig).err ≠ none →
      (write_set fs fn S cp grp ap ov ig).closed = 0) := by
  have hwf : ∀ fs2 : FS,
      ((writeSetOpen fs2 fn S grp ap ig).err = none →
        (writeSetOpen fs2 fn S grp ap ig).opened = 1 ∧
        (writeSetOpen fs2 fn S grp ap ig).closed = 1) ∧
      ((writeSetOpen fs2 fn S grp ap ig).err ≠ none →
        (writeSetOpen fs2 fn S grp ap ig).closed = 0) := by
    intro fs2
    unfold writeSetOpen
    cases he : (_get_group (alookup fs2 fn) grp ap).err with
    | some e => simp [he]
    | none =>
        simp only [he]
        constructor
        · intro h
          try simp at h
          simp [h]
        · intro h
          try simp at h
          simp [Option.isNone_iff_eq_none, h]
  simp only [write_set, _check_h5py_installed, h5py_installed, if_true]
  by_cases hex : ((alookup fs fn).isSome && !ap) = true
  · rw [if_pos hex]
    by_cases hov : ov
    · rw [if_pos hov]
      exact hwf (fsErase fs fn)
    · rw [if_neg hov]
      constructor
      · intro h
        simp at h
      · intro _
        rfl
  · rw [if_neg hex]
    exact hwf fs

theorem readSetLoop_counters (fs : FS) (fn : String) :
    ∀ (keys : List String) (acc : TableSet) (op cl : Nat),
    (readSetLoop fs fn keys acc op cl).err = none →
    (readSetLoop fs fn keys acc op cl).opened + cl =
      (readSetLoop fs fn keys acc op cl).closed + op := by
  intro keys
  induction keys with
  | nil => intro acc op cl _; simp [readSetLoop]; omega
  | cons k rest ih =>
      intro acc op cl h
      cases he : (read fs (.file fn) ⟨"", ⟨0, []⟩, []⟩ (some k)).err with
      | some e =>
          rw [readSetLoop] at h
          simp only [he] at h
          cases h
      | none =>
          have hoc := (read_file_counters fs fn ⟨"", ⟨0, []⟩, []⟩ (some k)).1 he
          rw [readSetLoop] at h ⊢
          simp only [he] at h ⊢
          rw [hoc.1, hoc.2] at h ⊢
          have := ih _ _ _ h
          omega

theorem read_set_leak (fs : FS) (fn : String) (S : TableSet)
    (h : (read_set fs fn S).err = none) :
    (read_set fs fn S).opened = (read_set fs fn S).closed + 1 := by
  cases hl : alookup fs fn with
  | none => simp [read_set, _check_h5py_installed, h5py_installed, hl] at h
  | some root =>
      have hr : read_set fs fn S =
          readSetLoop fs fn ((_list_tables root).map Prod.fst)
            ⟨[], asetAll [] root.nodeAttrs⟩ 2 1 := by
        simp [read_set, _check_h5py_installed, h5py_installed, hl,
          TableSet.reset]
      rw [hr] at h ⊢
      have := readSetLoop_counters fs fn ((_list_tables root).map Prod.fst)
        ⟨[], asetAll [] root.nodeAttrs⟩ 2 1 h
      omega

/-- C7 (corrected, amended): a caller-supplied handle is never closed by
any operation; an operation that opened its file explicitly closes it only
on the successful exit — every error exit leaves the handle open — and the
table-set read opens a second handle for discovery that is never
explicitly closed, so even its successful run ends with one more open than
close. -/
theorem claim_C7_handle_close_amended :
    (∀ (fs : FS) (fn : String) (t : Table) (arg : Option String),
      ((read fs (.file fn) t arg).err = none →
        (read fs (.file fn) t arg).opened = 1 ∧
        (read fs (.file fn) t arg).closed = 1) ∧
      ((read fs (.file fn) t arg).err ≠ none →
        (read fs (.file fn) t arg).closed = 0)) ∧
    (∀ (fs : FS) (n : Node) (t : Table) (arg : Option String),
      (read fs (.handle n) t arg).opened = 0 ∧
      (read fs (.handle n) t arg).closed = 0) ∧
    (∀ (fs : FS) (fn : String) (t : Table) (cp : Bool) (grp : String)
        (ap ov ig : Bool),
      ((write fs (.file fn) t cp grp ap ov ig).err = none →
        (write fs (.file fn) t cp grp ap ov ig).opened = 1 ∧
        (write fs (.file fn) t cp grp ap ov ig).closed = 1) ∧
      ((write fs (.file fn) t cp grp ap ov ig).err ≠ none →
        (write fs (.file fn) t cp grp ap ov ig).closed = 0)) ∧
    (∀ (fs : FS) (n : Node) (t : Table) (cp : Bool) (grp : String)
        (ap ov ig : Bool),
      (write fs (.handle n) t cp grp ap ov ig).opened = 0 ∧
      (write fs (.handle n) t cp grp ap ov ig).closed = 0) ∧
    (∀ (fs : FS) (fn : String) (S : TableSet) (cp : Bool) (grp : String)
        (ap ov ig : Bool),
      ((write_set fs fn S cp grp ap ov ig).err = none →
        (write_set fs fn S cp grp ap ov ig).opened = 1 ∧
        (write_set fs fn S cp grp ap ov ig).closed = 1) ∧
      ((write_set fs fn S cp grp ap ov ig).err ≠ none →
        (write_set fs fn S cp grp ap ov ig).closed = 0)) ∧
    (∀ (fs : FS) (fn : String) (S : TableSet),
      (read_set fs fn S).err = none →
      (read_set fs fn S).opened = (read_set fs fn S).closed + 1) :=
  ⟨read_file_counters, read_handle_counters, write_file_counters,
    write_handle_counters, write_set_counters, read_set_leak⟩

/-- C7 counterexample: a read of a container holding two record datasets
(with no requested table name) opens the file, exits with an error, and
never closes the handle — so the handle is not closed on every exit path
of an operation that opened the file. -/
theorem claim_C7_counterexample :
    (read [("f", Node.group [] (.cons "a" (.dataset ⟨1, [("x", [.vInt 1])]⟩ [])
        (.cons "b" (.dataset ⟨1, [("y", [.vInt 2])]⟩ []) .nil)))]
      (.file "f") ⟨"", ⟨0, []⟩, []⟩ none).err ≠ none ∧
    (read [("f", Node.group [] (.cons "a" (.dataset ⟨1, [("x", [.vInt 1])]⟩ [])
        (.cons "b" (.dataset ⟨1, [("y", [.vInt 2])]⟩ []) .nil)))]
      (.file "f") ⟨"", ⟨0, []⟩, []⟩ none).opened = 1 ∧
    (read [("f", Node.group [] (.cons "a" (.dataset ⟨1, [("x", [.vInt 1])]⟩ [])
        (.cons "b" (.dataset ⟨1, [("y", [.vInt 2])]⟩ []) .nil)))]
      (.file "f") ⟨"", ⟨0, []⟩, []⟩ none).closed = 0 := by
  decide

/-- C7 witness: the amended close-discipline theorem applied to a concrete
single-table file: the successful read closes its one handle, and the
successful table-set read ends with one more open than close. -/
theorem claim_C7_witness :
    ((read [("f", Node.group [] (.cons "a"
          (.dataset ⟨1, [("x", [.vInt 1])]⟩ []) .nil))]
        (.file "f") ⟨"", ⟨0, []⟩, []⟩ none).opened = 1 ∧
      (read [("f", Node.group [] (.cons "a"
          (.dataset ⟨1, [("x", [.vInt 1])]⟩ []) .nil))]
        (.file "f") ⟨"", ⟨0, []⟩, []⟩ none).closed = 1) ∧
    (read_set [("f", Node.group [] (.cons "a"
          (.dataset ⟨1, [("x", [.vInt 1])]⟩ []) .nil))] "f" ⟨[], []⟩).opened =
      (read_set [("f", Node.group [] (.cons "a"
          (.dataset ⟨1, [("x", [.vInt 1])]⟩ []) .nil))] "f" ⟨[], []⟩).closed + 1 := by
  constructor
  · exact (claim_C7_handle_close_amended.1 [("f", Node.group [] (.cons "a"
      (.dataset ⟨1, [("x", [.vInt 1])]⟩ []) .nil))] "f" ⟨"", ⟨0, []⟩, []⟩
      none).1 (by decide)
  · exact claim_C7_handle_close_amended.2.2.2.2.2 [("f", Node.group []
      (.cons "a" (.dataset ⟨1, [("x", [.vInt 1])]⟩ []) .nil))] "f" ⟨[], []⟩
      (by decide)

/-- C8 (corrected, amended): the file-level fatal errors are raised before
any container mutation — a read of a missing file fails with file-not-found
and an ambiguous discovery fails before any column is populated (though in
both cases the target table has already been reset, which is what the
counterexample shows), and the exclusive-mode file-exists error of both
write orchestrators is raised with the file system unchanged. -/
theorem claim_C8_early_errors_amended :
    (∀ (fs : FS) (fn : String) (t : Table) (arg : Option String),
      alookup fs fn = none →
      read fs (.file fn) t arg =
        ⟨Table.reset t, some (.fileNotFound fn), 0, 0⟩) ∧
    (∀ (fs : FS) (fn : String) (t : Table) (L : List String),
      (read fs (.file fn) t none).err = some (.ambiguousTable L) →
      (read fs (.file fn) t none).table = Table.reset t) ∧
    (∀ (fs : FS) (fn : String) (t : Table) (cp : Bool) (grp : String)
        (ig : Bool) (root : Node), alookup fs fn = some root →
      (write fs (.file fn) t cp grp false false ig).err =
          some (.fileExists fn) ∧
        (write fs (.file fn) t cp grp false false ig).fs = fs) ∧
    (∀ (fs : FS) (fn : String) (S : TableSet) (cp : Bool) (grp : String)
        (ig : Bool) (root : Node), alookup fs fn = some root →
      (write_set fs fn S cp grp false false ig).err =
          some (.fileExists fn) ∧
        (write_set fs fn S cp grp false false ig).fs = fs) := by
  refine ⟨?_, ?_, ?_, ?_⟩
  · intro fs fn t arg hfs
    simp [read, _check_h5py_installed, h5py_installed, hfs]
  · intro fs fn t L h
    cases hl : alookup fs fn with
    | none => simp [read, _check_h5py_installed, h5py_installed, hl] at h
    | some root =>
        have hr : read fs (.file fn) t none =
            readFromGroup root true (Table.reset t) none := by
          simp [read, _check_h5py_installed, h5py_installed, hl]
        rw [hr] at h ⊢
        unfold readFromGroup at h ⊢
        cases hlt : _list_tables root with
        | nil => simp [hlt]
        | cons x rest =>
            obtain ⟨k, q⟩ := x
            cases rest with
            | nil =>
                cases hf : findPath root k with
                | none => simp [hlt, hf] at h
                | some nd =>
                    match nd with
                    | .dataset d a => simp [hlt, hf] at h
                    | .group a cs => simp [hlt, hf] at h
            | cons y r2 => simp [hlt]
  · intro fs fn t cp grp ig root hfs
    simp [write, _check_h5py_installed, h5py_installed, hfs]
  · intro fs fn S cp grp ig root hfs
    simp [write_set, _check_h5py_installed, h5py_installed, hfs]

/-- C8 counterexample: a failed read has already mutated caller-visible
state — reading a missing file fails with file-not-found, but the target
table was reset before the check, so it is not unchanged from before the
call. -/
theorem claim_C8_counterexample :
    (read [] (.file "f") ⟨"t", ⟨1, [("x", [.vInt 1])]⟩, [("k", .vInt 2)]⟩
        none).err = some (.fileNotFound "f") ∧
    (read [] (.file "f") ⟨"t", ⟨1, [("x", [.vInt 1])]⟩, [("k", .vInt 2)]⟩
        none).table ≠ ⟨"t", ⟨1, [("x", [.vInt 1])]⟩, [("k", .vInt 2)]⟩ := by
  decide

/-- C8 witness: the amended theorem applied to a file-exists write on a
one-file file system and a missing-file read. -/
theorem claim_C8_witness :
    read [] (.file "g") ⟨"t", ⟨0, []⟩, []⟩ none =
      ⟨Table.reset ⟨"t", ⟨0, []⟩, []⟩, some (.fileNotFound "g"), 0, 0⟩ ∧
    (write [("f", Node.emptyGroup)] (.file "f") ⟨"t", ⟨0, []⟩, []⟩ false ""
        false false false).err = some (.fileExists "f") ∧
    (write [("f", Node.emptyGroup)] (.file "f") ⟨"t", ⟨0, []⟩, []⟩ false ""
        false false false).fs = [("f", Node.emptyGroup)] := by
  refine ⟨?_, ?_⟩
  · exact claim_C8_early_errors_amended.1 [] "g" ⟨"t", ⟨0, []⟩, []⟩ none rfl
  · exact claim_C8_early_errors_amended.2.2.1 [("f", Node.emptyGroup)] "f"
      ⟨"t", ⟨0, []⟩, []⟩ false "" false Node.emptyGroup rfl

/-- C2 witness: the non-clobber theorem applied to a concrete handle whose
group already holds a dataset named "t1", and to a concrete one-file file
system whose root already holds a dataset named "Table_00" colliding with
the fallback name of a single unnamed table. -/
theorem claim_C2_noclobber_witness :
    ((write [] (.handle (.group [] (.cons "t1"
          (.dataset ⟨1, [("x", [.vInt 1])]⟩ []) .nil)))
        ⟨"t1", ⟨1, [("y", [.vInt 2])]⟩, []⟩ false "" false false false).err =
        some (.tableAlreadyExists "" "t1") ∧
      (write [] (.handle (.group [] (.cons "t1"
          (.dataset ⟨1, [("x", [.vInt 1])]⟩ []) .nil)))
        ⟨"t1", ⟨1, [("y", [.vInt 2])]⟩, []⟩ false "" false false false).hnode =
        some (.group [] (.cons "t1" (.dataset ⟨1, [("x", [.vInt 1])]⟩ []) .nil))) ∧
    ((write_set [("f", .group [] (.cons "Table_00"
          (.dataset ⟨1, [("x", [.vInt 1])]⟩ []) .nil))] "f"
        ⟨[⟨"", ⟨1, [("y", [.vInt 2])]⟩, []⟩], []⟩ false "" true false false).err =
        some (.tableAlreadyExists "" "Table_00") ∧
      ∃ gfinal, alookup (write_set [("f", .group [] (.cons "Table_00"
          (.dataset ⟨1, [("x", [.vInt 1])]⟩ []) .nil))] "f"
        ⟨[⟨"", ⟨1, [("y", [.vInt 2])]⟩, []⟩], []⟩ false "" true false
          false).fs "f" = some gfinal ∧
        Node.childNamed gfinal "Table_00" =
          some (.dataset ⟨1, [("x", [.vInt 1])]⟩ [])) := by
  constructor
  · exact claim_C2_noclobber.1 [] (.group [] (.cons "t1"
      (.dataset ⟨1, [("x", [.vInt 1])]⟩ []) .nil))
      ⟨"t1", ⟨1, [("y", [.vInt 2])]⟩, []⟩ false false false false
      ⟨1, [("x", [.vInt 1])]⟩ [] (by decide) rfl
  · exact claim_C2_noclobber.2 [("f", .group [] (.cons "Table_00"
      (.dataset ⟨1, [("x", [.vInt 1])]⟩ []) .nil))] "f"
      (.group [] (.cons "Table_00" (.dataset ⟨1, [("x", [.vInt 1])]⟩ []) .nil))
      ⟨[⟨"", ⟨1, [("y", [.vInt 2])]⟩, []⟩], []⟩ false false false
      [] [] ⟨"", ⟨1, [("y", [.vInt 2])]⟩, []⟩ ⟨1, [("x", [.vInt 1])]⟩ []
      rfl rfl rfl (by decide) rfl

/-- C3 witness: the discovery-ambiguity theorem applied to a concrete
one-table container (unique-discovery success) and a concrete two-table
container (ambiguity error listing both names). -/
theorem claim_C3_discovery_ambiguity_witness :
    (read [("f", Node.group [] (.cons "a"
          (.dataset ⟨1, [("x", [.vInt 1])]⟩ []) .nil))]
        (.file "f") ⟨"", ⟨0, []⟩, []⟩ none =
      read [("f", Node.group [] (.cons "a"
          (.dataset ⟨1, [("x", [.vInt 1])]⟩ []) .nil))]
        (.file "f") ⟨"", ⟨0, []⟩, []⟩ (some "a")) ∧
    (read [("f", Node.group [] (.cons "a"
          (.dataset ⟨1, [("x", [.vInt 1])]⟩ []) .nil))]
        (.file "f") ⟨"", ⟨0, []⟩, []⟩ none).err = none ∧
    (read [("g", Node.group [] (.cons "a"
          (.dataset ⟨1, [("x", [.vInt 1])]⟩ [])
        (.cons "b" (.dataset ⟨1, [("y", [.vInt 2])]⟩ []) .nil)))]
        (.file "g") ⟨"", ⟨0, []⟩, []⟩ none).err =
      some (.ambiguousTable ["a", "b"]) := by
  have h1 := (claim_C3_discovery_ambiguity [("f", Node.group [] (.cons "a"
    (.dataset ⟨1, [("x", [.vInt 1])]⟩ []) .nil))] "f"
    (Node.group [] (.cons "a" (.dataset ⟨1, [("x", [.vInt 1])]⟩ []) .nil))
    ⟨"", ⟨0, []⟩, []⟩ rfl).1 "a" (by decide)
  have h2 := (claim_C3_discovery_ambiguity [("g", Node.group [] (.cons "a"
    (.dataset ⟨1, [("x", [.vInt 1])]⟩ [])
    (.cons "b" (.dataset ⟨1, [("y", [.vInt 2])]⟩ []) .nil)))] "g"
    (Node.group [] (.cons "a" (.dataset ⟨1, [("x", [.vInt 1])]⟩ [])
      (.cons "b" (.dataset ⟨1, [("y", [.vInt 2])]⟩ []) .nil)))
    ⟨"", ⟨0, []⟩, []⟩ rfl).2 (by decide)
  exact ⟨h1.1, h1.2.1, h2⟩

/-- C6 witness: each clause of the file-open-policy theorem applied at a
concrete input. -/
theorem claim_C6_file_open_policy_witness :
    (write [("f", Node.emptyGroup)] (.file "f") ⟨"t", ⟨0, []⟩, []⟩ false ""
        false false false =
      ⟨[("f", Node.emptyGroup)], none, some (.fileExists "f"), 0, 0⟩) ∧
    (write_set [("f", Node.emptyGroup)] "f" ⟨[], []⟩ false "" false false
        false = ⟨[("f", Node.emptyGroup)], some (.fileExists "f"), 0, 0⟩) ∧
    (write [("f", Node.emptyGroup)] (.file "f") ⟨"t", ⟨0, []⟩, []⟩ false ""
        false true false =
      write (fsErase [("f", Node.emptyGroup)] "f") (.file "f")
        ⟨"t", ⟨0, []⟩, []⟩ false "" false true false) ∧
    (write_set [("f", Node.emptyGroup)] "f" ⟨[], []⟩ false "" false true
        false = write_set (fsErase [("f", Node.emptyGroup)] "f") "f" ⟨[], []⟩
        false "" false true false) ∧
    (∃ root2, alookup (write [("f", .group [] (.cons "a"
          (.dataset ⟨1, [("x", [.vInt 1])]⟩ []) .nil))] (.file "f")
        ⟨"t", ⟨1, [("y", [.vInt 2])]⟩, []⟩ false "" true false false).fs "f" =
        some root2 ∧
      Node.childNamed root2 "a" = some (.dataset ⟨1, [("x", [.vInt 1])]⟩ [])) ∧
    (write [] (.file "f") ⟨"t", ⟨0, []⟩, []⟩ false "" true false false =
      write [] (.file "f") ⟨"t", ⟨0, []⟩, []⟩ false "" false false false) ∧
    (_get_group (some Node.emptyGroup) "" true = ⟨Node.emptyGroup, [], none⟩ ∧
      _get_group none "" false = ⟨Node.emptyGroup, [], none⟩) := by
  refine ⟨?_, ?_, ?_, ?_, ?_, ?_, ?_⟩
  · exact claim_C6_file_open_policy.1 [("f", Node.emptyGroup)] "f"
      ⟨"t", ⟨0, []⟩, []⟩ false "" false Node.emptyGroup rfl
  · exact claim_C6_file_open_policy.2.1 [("f", Node.emptyGroup)] "f" ⟨[], []⟩
      false "" false Node.emptyGroup rfl
  · exact claim_C6_file_open_policy.2.2.1 [("f", Node.emptyGroup)] "f"
      ⟨"t", ⟨0, []⟩, []⟩ false "" false Node.emptyGroup rfl
  · exact claim_C6_file_open_policy.2.2.2.1 [("f", Node.emptyGroup)] "f"
      ⟨[], []⟩ false "" false Node.emptyGroup rfl
  · exact claim_C6_file_open_policy.2.2.2.2.1 [("f", .group [] (.cons "a"
      (.dataset ⟨1, [("x", [.vInt 1])]⟩ []) .nil))] "f"
      ⟨"t", ⟨1, [("y", [.vInt 2])]⟩, []⟩ false false false
      (.group [] (.cons "a" (.dataset ⟨1, [("x", [.vInt 1])]⟩ []) .nil))
      "a" ⟨1, [("x", [.vInt 1])]⟩ [] rfl rfl
  · exact claim_C6_file_open_policy.2.2.2.2.2.1 [] "f" ⟨"t", ⟨0, []⟩, []⟩
      false false false "" rfl
  · exact claim_C6_file_open_policy.2.2.2.2.2.2 Node.emptyGroup none

/-- C9 witness: the general table-set naming theorem applied to a
concrete three-table set (unnamed, named "Mine", unnamed) on a fresh file
system, whose datasets come out as Table_00, Mine, Table_02 in stored
order with the file keywords on the root. -/
theorem claim_C9_writeset_fallback_naming_witness :
    (write_set [] "f" ⟨[⟨"", ⟨1, [("x", [.vInt 1])]⟩, [("a", .vInt 1)]⟩,
        ⟨"Mine", ⟨1, [("y", [.vInt 2])]⟩, [("b", .vInt 2)]⟩,
        ⟨"", ⟨1, [("z", [.vInt 3])]⟩, [("c", .vInt 3)]⟩],
        [("fk", .vStr "v")]⟩ false "" false false false).err = none ∧
    alookup (write_set [] "f" ⟨[⟨"", ⟨1, [("x", [.vInt 1])]⟩, [("a", .vInt 1)]⟩,
        ⟨"Mine", ⟨1, [("y", [.vInt 2])]⟩, [("b", .vInt 2)]⟩,
        ⟨"", ⟨1, [("z", [.vInt 3])]⟩, [("c", .vInt 3)]⟩],
        [("fk", .vStr "v")]⟩ false "" false false false).fs "f" =
      some (.group [("fk", .vStr "v")]
        (.cons "Table_00" (.dataset ⟨1, [("x", [.vInt 1])]⟩ [("a", .vInt 1)])
          (.cons "Mine" (.dataset ⟨1, [("y", [.vInt 2])]⟩ [("b", .vInt 2)])
            (.cons "Table_02" (.dataset ⟨1, [("z", [.vInt 3])]⟩
              [("c", .vInt 3)]) .nil)))) := by
  exact claim_C9_writeset_fallback_naming [] "f"
    ⟨[⟨"", ⟨1, [("x", [.vInt 1])]⟩, [("a", .vInt 1)]⟩,
      ⟨"Mine", ⟨1, [("y", [.vInt 2])]⟩, [("b", .vInt 2)]⟩,
      ⟨"", ⟨1, [("z", [.vInt 3])]⟩, [("c", .vInt 3)]⟩],
      [("fk", .vStr "v")]⟩ rfl (by decide) (by decide)

/-- C10 witness: the handle-write theorem applied to a concrete handle
with one existing group, exercising both the reuse case and the create
case. -/
theorem claim_C10_handle_write_witness :
    (write [] (.handle (.group [] (.cons "g1" Node.emptyGroup .nil)))
        ⟨"t", ⟨1, [("x", [.vInt 1])]⟩, []⟩ false "g1" true true false =
      write [] (.handle (.group [] (.cons "g1" Node.emptyGroup .nil)))
        ⟨"t", ⟨1, [("x", [.vInt 1])]⟩, []⟩ false "g1" false false false) ∧
    (write [] (.handle (.group [] (.cons "g1" Node.emptyGroup .nil)))
        ⟨"t", ⟨1, [("x", [.vInt 1])]⟩, []⟩ false "g1" true true false).fs = [] ∧
    (∃ g2, (write [] (.handle (.group [] (.cons "g1" Node.emptyGroup .nil)))
        ⟨"t", ⟨1, [("x", [.vInt 1])]⟩, []⟩ false "g1" true true false).hnode =
        some g2 ∧
      Node.childNames g2 =
        Node.childNames (.group [] (.cons "g1" Node.emptyGroup .nil))) ∧
    (∃ g2, (write [] (.handle (.group [] (.cons "g1" Node.emptyGroup .nil)))
        ⟨"t", ⟨1, [("x", [.vInt 1])]⟩, []⟩ false "g2" true true false).hnode =
        some g2 ∧
      Node.childNames g2 =
        Node.childNames (.group [] (.cons "g1" Node.emptyGroup .nil)) ++
          ["g2"]) := by
  refine ⟨?_, ?_, ?_, ?_⟩
  · exact (claim_C10_handle_write_no_fs [] (.group [] (.cons "g1"
      Node.emptyGroup .nil)) ⟨"t", ⟨1, [("x", [.vInt 1])]⟩, []⟩ false "g1"
      true true false false false).1
  · exact (claim_C10_handle_write_no_fs [] (.group [] (.cons "g1"
      Node.emptyGroup .nil)) ⟨"t", ⟨1, [("x", [.vInt 1])]⟩, []⟩ false "g1"
      true true false false false).2.1
  · exact (claim_C10_handle_write_no_fs [] (.group [] (.cons "g1"
      Node.emptyGroup .nil)) ⟨"t", ⟨1, [("x", [.vInt 1])]⟩, []⟩ false "g1"
      true true false false false).2.2.2.1 (by decide) (by decide)
  · exact (claim_C10_handle_write_no_fs [] (.group [] (.cons "g1"
      Node.emptyGroup .nil)) ⟨"t", ⟨1, [("x", [.vInt 1])]⟩, []⟩ false "g2"
      true true false false false).2.2.2.2 [] (.cons "g1" Node.emptyGroup .nil)
      rfl (by decide) (by decide) (by decide)

end Hdf5Table
